import Mathlib

/-!
Verification development for the `subdomain-router` Cloudflare worker
(`src/worker.ts`).  The worker's code is shallowly embedded here:

* JavaScript strings become `List Char` (`Str`), with the string methods
  the worker uses (`startsWith`, `endsWith`, `includes`, `slice`,
  `replace` of a first occurrence, `toLowerCase`) modelled as executable
  functions on `List Char`;
* the platform `URL` object becomes the record `Url` with fields
  `scheme`, `host`, `pathname`, `search`; `parseURL` models the `URL`
  constructor restricted to the `scheme://host[/path][?query]` shapes the
  worker handles (no scheme/host case normalisation, no dot-segment
  normalisation, fragments not modelled);
* the platform `Headers` map becomes an association list with
  case-insensitive names;
* `JSON.parse` of the `ROUTES` and `CACHE_IMAGES` environment texts is a
  platform primitive; the environment record therefore carries the parse
  RESULT (`none` models a throw), not the raw text;
* `fetch` is an oracle argument (`FetchOutcome`); the handler's result
  records the outbound requests it issued, so that "no outbound call" and
  "not retried" are statable;
* the streaming `HTMLRewriter` is modelled at the element level: an
  element is a record of tag name, attributes and prepended raw-html
  chunks, and the two handler classes become functions on it.
-/

namespace SubdomainRouter

/-- JavaScript strings are modelled as lists of characters. -/
abbrev Str := List Char

/-- Embed a Lean string literal as a `Str`. -/
def str (s : String) : Str := s.data

/-- Model of `s.startsWith(pat)`. -/
def jsStartsWith (s pat : Str) : Bool := pat.isPrefixOf s

/-- Model of `s.endsWith(pat)`. -/
def jsEndsWith (s pat : Str) : Bool := pat.isSuffixOf s

/-- Model of `s.includes(pat)` (substring test). -/
def jsIncludes : Str → Str → Bool
  | [], pat => pat.isPrefixOf ([] : Str)
  | c :: rest, pat => pat.isPrefixOf (c :: rest) || jsIncludes rest pat

/-- Model of `s.replace(pat, rep)` for a nonempty literal `pat`: replaces
the first occurrence only, as the JavaScript method does on a string
argument. -/
def jsReplaceFirst (pat rep : Str) : Str → Str
  | [] => []
  | c :: rest =>
    if pat.isPrefixOf (c :: rest) then rep ++ (c :: rest).drop pat.length
    else c :: jsReplaceFirst pat rep rest

/-- ASCII lower-casing of one character, as `String.prototype.toLowerCase`
acts on the ASCII header and path texts the worker lower-cases. -/
def lowerChar (c : Char) : Char :=
  if 'A' ≤ c ∧ c ≤ 'Z' then Char.ofNat (c.toNat + 32) else c

/-- Model of `s.toLowerCase()` on ASCII text. -/
def lowerStr (s : Str) : Str := s.map lowerChar

/-- Model of the platform `URL` object, restricted to the components the
worker reads and writes: `origin` (`scheme://host`), `pathname`,
`search`. -/
structure Url where
  scheme : Str
  host : Str
  pathname : Str
  search : Str
deriving DecidableEq

/-- The `origin` accessor of the platform `URL`. -/
def Url.origin (u : Url) : Str := u.scheme ++ str "://" ++ u.host

/-- The `toString()` of the platform `URL` for the shapes modelled here. -/
def Url.toStr (u : Url) : Str := u.origin ++ u.pathname ++ u.search

/-- Split `s` at the first occurrence of `pat`:
`splitFirst pat s = some (a, b)` with `s = a ++ pat ++ b` and `a` shortest. -/
def splitFirst (pat : Str) : Str → Option (Str × Str)
  | [] => if pat.isPrefixOf ([] : Str) then some ([], []) else none
  | c :: rest =>
    if pat.isPrefixOf (c :: rest) then some ([], (c :: rest).drop pat.length)
    else
      match splitFirst pat rest with
      | some (a, b) => some (c :: a, b)
      | none => none

/-- A character allowed in a URL scheme after the leading letter. -/
def schemeCharOk (c : Char) : Bool :=
  c.isAlpha || c.isDigit || c == '+' || c == '-' || c == '.'

/-- A URL scheme: a letter followed by letters, digits, `+`, `-`, `.`. -/
def validScheme : Str → Bool
  | [] => false
  | c :: rest => c.isAlpha && (c :: rest).all schemeCharOk

/-- A character that may appear in the host component: anything up to the
first `/` or `?`. -/
def hostChar (c : Char) : Bool := !(c == '/') && !(c == '?')

/-- Assemble the parsed URL once the scheme and host have been split off;
`tail` is the path-and-query remainder (empty, or starting with `/` or
`?`). -/
def mkParsedUrl (scheme host tail : Str) : Url :=
  match tail with
  | [] => ⟨scheme, host, str "/", []⟩
  | c :: t2 =>
    if c == '?' then ⟨scheme, host, str "/", if t2 = [] then [] else c :: t2⟩
    else
      ⟨scheme, host, (c :: t2).takeWhile (fun x => !(x == '?')),
        if (c :: t2).dropWhile (fun x => !(x == '?')) = str "?" then []
        else (c :: t2).dropWhile (fun x => !(x == '?'))⟩

/-- Model of the platform URL parser (`new URL(s)` succeeding or throwing),
restricted to the absolute `scheme://host[/path][?query]` shapes the
worker's configuration and attribute values take.  The model does not
lower-case the scheme or host and does not normalise dot segments; a
missing path parses to pathname `/`, a lone trailing `?` to an empty
`search`, as in the platform. -/
def parseURL (s : Str) : Option Url :=
  match splitFirst (str "://") s with
  | none => none
  | some (scheme, rest) =>
    if validScheme scheme then
      if rest.takeWhile hostChar = [] then none
      else some (mkParsedUrl scheme (rest.takeWhile hostChar) (rest.dropWhile hostChar))
    else none

/-- Model of `new URL(path, base)` where `base` is an origin and `path` an
absolute path, the only combination the worker uses (`buildTargetUrl`). -/
def urlFromPath (path : Str) (base : Url) : Url :=
  { scheme := base.scheme, host := base.host,
    pathname := if jsStartsWith path (str "/") then path else str "/" ++ path,
    search := [] }

/-- A route table: the ordered entries of the `ROUTES` JSON object
(`Object.entries` order). -/
abbrev RouteConfig := List (Str × Str)

/-- The expression `routePath.endsWith("/*") ? routePath.slice(0, -2) :
routePath` that `worker.ts` repeats at lines 131, 146-148 and 333. -/
def stripWildcardPattern (routePath : Str) : Str :=
  if jsEndsWith routePath (str "/*") then routePath.take (routePath.length - 2)
  else routePath

/-- Embeds `matchesRoutePath` (worker.ts lines 130-143). -/
def matchesRoutePath (pathname routePath : Str) : Bool :=
  let pathPattern := stripWildcardPattern routePath
  if jsEndsWith routePath (str "/*") then
    pathname == pathPattern ||
    pathname == pathPattern ++ str "/" ||
    jsStartsWith pathname (pathPattern ++ str "/")
  else
    pathname == routePath

/-- Embeds `extractRemainingPath` (worker.ts lines 145-157). -/
def extractRemainingPath (pathname routePath : Str) : Str :=
  let pathPattern := stripWildcardPattern routePath
  if pathname == pathPattern then str "/"
  else if pathname == pathPattern ++ str "/" then str "/"
  else pathname.drop pathPattern.length

/-- Result of `parseTargetUrl`. -/
structure ParsedTarget where
  url : Str
  isProxy : Bool
deriving DecidableEq

/-- Embeds `parseTargetUrl` (worker.ts lines 159-168). -/
def parseTargetUrl (target : Str) : ParsedTarget :=
  let isProxy := jsStartsWith target (str "proxy:")
  let url :=
    if isProxy then target.drop 6
    else if jsStartsWith target (str "302:") then target.drop 4
    else target
  ⟨url, isProxy⟩

/-- Embeds `buildTargetUrl` (worker.ts lines 170-184).  The `URL`
constructor throwing is modelled by `none`. -/
def buildTargetUrl (targetPattern remainingPath : Str) : Option Url :=
  if jsIncludes targetPattern (str "/*") then
    match parseURL (jsReplaceFirst (str "/*") [] targetPattern) with
    | none => none
    | some targetURL =>
      let finalPath :=
        if targetURL.pathname = str "/" then remainingPath
        else targetURL.pathname ++ remainingPath
      some (urlFromPath finalPath targetURL)
  else
    parseURL targetPattern

/-- The `type` discriminator of a `RouteMatch`. -/
inductive RouteKind
  | proxy
  | redirect
deriving DecidableEq

/-- Embeds the `RouteMatch` type (worker.ts lines 125-128). -/
structure RouteMatch where
  targetUrl : Url
  type : RouteKind
deriving DecidableEq

/-- Result of `computeRedirectTarget`: `null`, a thrown `URL` constructor
error (propagated to the caller's catch-all), or a match. -/
inductive RedirectOutcome
  | noMatch
  | err
  | found (m : RouteMatch)
deriving DecidableEq

/-- The `Object.entries(routes).find(...)` step of `computeRedirectTarget`
(worker.ts lines 190-192). -/
def matchingRoute (pathname : Str) (routes : RouteConfig) : Option (Str × Str) :=
  routes.find? (fun e => matchesRoutePath pathname e.1)

/-- Embeds `computeRedirectTarget` (worker.ts lines 186-210). -/
def computeRedirectTarget (url : Url) (routes : RouteConfig) : RedirectOutcome :=
  match matchingRoute url.pathname routes with
  | none => .noMatch
  | some (routePath, targetPattern) =>
    let pt := parseTargetUrl targetPattern
    let remainingPath := extractRemainingPath url.pathname routePath
    match buildTargetUrl pt.url remainingPath with
    | none => .err
    | some targetURL =>
      .found ⟨{ targetURL with search := url.search },
              if pt.isProxy then .proxy else .redirect⟩

/-- The per-entry validity test of `validateRoutes` (worker.ts lines
77-99): strip the `proxy:`/`302:` marker, then check that the target (with
a `/*` wildcard removed if present) parses as a URL.  The non-fatal
wildcard-mismatch `console.warn` at line 86 has no observable effect and
is not modelled. -/
def validTargetUrl (target : Str) : Bool :=
  let targetUrl :=
    if jsStartsWith target (str "proxy:") then target.drop 6
    else if jsStartsWith target (str "302:") then target.drop 4
    else target
  if jsIncludes targetUrl (str "/*") then
    (parseURL (jsReplaceFirst (str "/*") [] targetUrl)).isSome
  else
    (parseURL targetUrl).isSome

/-- Embeds `validateRoutes` (worker.ts lines 71-101): the function throws
on the first invalid entry, so the table is accepted iff every entry has a
path starting with `/` and a parseable target. -/
def validateRoutes (routes : RouteConfig) : Bool :=
  routes.all (fun e => jsStartsWith e.1 (str "/") && validTargetUrl e.2)

/-- Result of `JSON.parse(env.CACHE_IMAGES)`: the variable may be unset,
fail to parse, or parse to an array of strings, a boolean, or some other
JSON value (non-string array members can never compare equal to a route
path and are dropped by the model). -/
inductive CacheImagesCfg
  | absent
  | invalidJson
  | arr (routesList : List Str)
  | flag (b : Bool)
  | other
deriving DecidableEq

/-- The worker environment.  `JSON.parse` is a platform primitive, so the
record carries the parse results of the two configuration texts; `ROUTES
= none` models `JSON.parse(env.ROUTES)` throwing. -/
structure Env where
  ROUTES : Option RouteConfig
  CACHE_IMAGES : CacheImagesCfg
deriving DecidableEq

/-- Embeds `getCacheConfig` (worker.ts lines 16-42), returning its
`cacheImages` field. -/
def getCacheConfig (env : Env) (routePath : Str) : Bool :=
  match env.CACHE_IMAGES with
  | .arr routesList =>
    routesList.any (fun route =>
      let normalizedRoutePath :=
        if jsEndsWith routePath (str "/*") then routePath else routePath ++ str "/*"
      route == normalizedRoutePath || route == routePath)
  | .flag b => b
  | _ => false

/-- Embeds `getRoutes` (worker.ts lines 103-122): a parse failure or a
validation failure both yield the empty table. -/
def getRoutes (env : Env) : RouteConfig :=
  match env.ROUTES with
  | none => []
  | some routes => if validateRoutes routes then routes else []

/-- The character class `[0-9a-f]` of the first hash regex, under the
regex's `i` flag (so upper-case hex digits match too). -/
def isHexChar (c : Char) : Bool :=
  c.isDigit || ('a' ≤ c && c ≤ 'f') || ('A' ≤ c && c ≤ 'F')

/-- The character class `[0-9a-zA-Z]` of the second hash regex. -/
def isAlnumChar (c : Char) : Bool := c.isAlphanum

/-- The `\.(js|css)$` tail of the hash regexes under the `i` flag: the
whole remaining text is `.js` or `.css`, case-insensitively. -/
def isHashExt (s : Str) : Bool :=
  lowerStr s == str ".js" || lowerStr s == str ".css"

/-- Backtracking matcher for `cls{8,}\.(js|css)$` having already consumed
`n` class characters: either stop the run (once at least 8 characters
long) at the extension, or consume one more class character. -/
def hashRunFrom (cls : Char → Bool) : Nat → Str → Bool
  | n, [] => decide (8 ≤ n) && isHashExt []
  | n, c :: rest =>
    (decide (8 ≤ n) && isHashExt (c :: rest)) ||
    (cls c && hashRunFrom cls (n + 1) rest)

/-- Unanchored search for `[.-]cls{8,}\.(js|css)$`, i.e.
`RegExp.prototype.test` for the two hash regexes of `hasContentHash`. -/
def hashSearch (cls : Char → Bool) : Str → Bool
  | [] => false
  | c :: rest =>
    ((c == '.' || c == '-') && hashRunFrom cls 0 rest) || hashSearch cls rest

/-- Embeds `hasContentHash` (worker.ts lines 45-58): the path matches the
hex-hash regex `/[.-][0-9a-f]{8,}\.(js|css)$/i` or the base64-like regex
`/[.-][0-9a-zA-Z]{8,}\.(js|css)$/i`. -/
def hasContentHash (pathname : Str) : Bool :=
  hashSearch isHexChar pathname || hashSearch isAlnumChar pathname

/-- The image extension list of `isImageFile` (worker.ts lines 62-65). -/
def imageExtensions : List Str :=
  [str ".jpg", str ".jpeg", str ".png", str ".gif", str ".webp", str ".svg",
   str ".ico", str ".bmp", str ".avif", str ".tiff", str ".tif"]

/-- Embeds `isImageFile` (worker.ts lines 61-69). -/
def isImageFile (pathname : Str) : Bool :=
  let lowercasePath := lowerStr pathname
  imageExtensions.any (fun ext => jsEndsWith lowercasePath ext)

/-- Model of the platform `Headers` map: an association list whose names
compare case-insensitively, as `Headers` names do. -/
structure Headers where
  entries : List (Str × Str)
deriving DecidableEq

/-- Case-insensitive header-name comparison. -/
def headerNameEq (a b : Str) : Bool := lowerStr a == lowerStr b

/-- Model of `Headers.prototype.get` (first matching entry). -/
def Headers.get (h : Headers) (name : Str) : Option Str :=
  (h.entries.find? (fun e => headerNameEq e.1 name)).map (fun e => e.2)

/-- Model of `Headers.prototype.has`. -/
def Headers.has (h : Headers) (name : Str) : Bool := (h.get name).isSome

/-- Model of `Headers.prototype.set`: any entries with the name are
replaced by the single new entry. -/
def Headers.set (h : Headers) (name v : Str) : Headers :=
  ⟨h.entries.filter (fun e => !headerNameEq e.1 name) ++ [(name, v)]⟩

/-- Model of `Headers.prototype.delete`. -/
def Headers.delete (h : Headers) (name : Str) : Headers :=
  ⟨h.entries.filter (fun e => !headerNameEq e.1 name)⟩

/-- Model of an `HTMLRewriter` element as the handlers observe it: its tag
name, its attribute list, and the raw-html chunks prepended via
`element.prepend(..., { html: true })`, in emission order (the head of
`prependedHtml` is emitted first, before the element's original
children). -/
structure HElement where
  tagName : Str
  attrs : List (Str × Str)
  prependedHtml : List Str
deriving DecidableEq

/-- Model of `Element.prototype.getAttribute` (`null` becomes `none`). -/
def HElement.getAttribute (e : HElement) (name : Str) : Option Str :=
  (e.attrs.find? (fun a => a.1 == name)).map (fun a => a.2)

/-- Model of `Element.prototype.setAttribute`: overwrite the existing
attribute or append a new one. -/
def HElement.setAttribute (e : HElement) (name v : Str) : HElement :=
  if (e.attrs.find? (fun a => a.1 == name)).isSome then
    { e with attrs := e.attrs.map (fun a => if a.1 == name then (a.1, v) else a) }
  else
    { e with attrs := e.attrs ++ [(name, v)] }

/-- The constructor state of the `AttributeRewriter` class (worker.ts
lines 212-217). -/
structure AttributeRewriter where
  sourcePath : Str
  sourceUrl : Url
  targetUrl : Url
deriving DecidableEq

/-- Embeds `AttributeRewriter.rewriteAbsoluteUrl` (worker.ts lines
220-226): a string-prefix test against the target origin, then origin and
source-path substitution on the remainder. -/
def AttributeRewriter.rewriteAbsoluteUrl (r : AttributeRewriter) (url : Str) : Str :=
  if jsStartsWith url r.targetUrl.origin then
    r.sourceUrl.origin ++ r.sourcePath ++ url.drop r.targetUrl.origin.length
  else url

/-- Embeds `AttributeRewriter.rewriteRelativeUrl` (worker.ts lines
229-234). -/
def AttributeRewriter.rewriteRelativeUrl (r : AttributeRewriter) (url : Str) : Str :=
  if jsStartsWith url (str "/") then r.sourcePath ++ url else url

/-- Models `try { new URL(v); isAbsolute = true } catch {}` — the
absolute/relative classification used by `AttributeRewriter.element`. -/
def isAbsoluteUrlStr (s : Str) : Bool := (parseURL s).isSome

/-- The attribute-processing block that `AttributeRewriter.element`
duplicates for `href` (worker.ts lines 237-254) and `src` (lines
256-273): a missing or empty value (`if (href)`) is left alone, an
absolute value goes through `rewriteAbsoluteUrl`, any other value through
`rewriteRelativeUrl`. -/
def AttributeRewriter.rewriteUrlAttribute (r : AttributeRewriter) (e : HElement)
    (name : Str) : HElement :=
  match e.getAttribute name with
  | none => e
  | some v =>
    if v = [] then e
    else if isAbsoluteUrlStr v then e.setAttribute name (r.rewriteAbsoluteUrl v)
    else e.setAttribute name (r.rewriteRelativeUrl v)

/-- The `meta`-content block of `AttributeRewriter.element` (worker.ts
lines 276-292): for `meta` elements only, a non-empty `content` value
that parses as an absolute URL goes through `rewriteAbsoluteUrl`; all
other values are left untouched. -/
def AttributeRewriter.rewriteMetaContent (r : AttributeRewriter) (e : HElement) : HElement :=
  if e.tagName == str "meta" then
    match e.getAttribute (str "content") with
    | none => e
    | some content =>
      if content = [] then e
      else if isAbsoluteUrlStr content then
        e.setAttribute (str "content") (r.rewriteAbsoluteUrl content)
      else e
  else e

/-- Embeds `AttributeRewriter.element` (worker.ts lines 236-293): rewrite
`href`, then `src`, then the `meta` `content` block. -/
def AttributeRewriter.element (r : AttributeRewriter) (e0 : HElement) : HElement :=
  r.rewriteMetaContent (r.rewriteUrlAttribute (r.rewriteUrlAttribute e0 (str "href")) (str "src"))

/-- The constructor state of the `BaseTagInjector` class (worker.ts lines
296-297). -/
structure BaseTagInjector where
  basePath : Str
deriving DecidableEq

/-- The base-tag text built at worker.ts lines 302-304. -/
def baseTagString (basePath : Str) : Str :=
  str "<base href=\"" ++ basePath ++
    (if jsEndsWith basePath (str "/") then [] else str "/") ++ str "\">"

/-- Embeds `BaseTagInjector.element` (worker.ts lines 299-310): prepend
the base tag as the first emitted child of `<head>`. -/
def BaseTagInjector.element (b : BaseTagInjector) (e : HElement) : HElement :=
  if e.tagName == str "head" then
    { e with prependedHtml := baseTagString b.basePath :: e.prependedHtml }
  else e

/-- The inbound request as `handleRequest` consumes it: its parsed URL and
its headers (method and body are forwarded opaquely and no claim observes
them). -/
structure HRequest where
  url : Url
  headers : Headers
deriving DecidableEq

/-- The origin's response as the worker consumes it. -/
structure UpstreamResponse where
  status : Nat
  headers : Headers
  body : Str
deriving DecidableEq

/-- The outcome of the single `fetch(modifiedRequest)` call, supplied as
an oracle: a response, or a transport-level throw. -/
inductive FetchOutcome
  | ok (resp : UpstreamResponse)
  | failure
deriving DecidableEq

/-- An outbound request issued by the handler. -/
structure OutboundRequest where
  url : Url
  headers : Headers
deriving DecidableEq

/-- The HTML transform the handler installs on a proxied HTML response
(worker.ts lines 412-426): the `AttributeRewriter` registered on `*` and
the base path given to the `BaseTagInjector` registered on `head`. -/
structure HtmlTransform where
  attributeRewriter : AttributeRewriter
  baseTagPath : Str
deriving DecidableEq

/-- What `handleRequest` returns: the pass-through `null`, a
`Response.redirect(..., 302)`, or a built response (its status, body,
headers, and — for HTML — the installed transform). -/
inductive HResponse
  | passThrough
  | redirect302 (location : Url)
  | response (status : Nat) (body : Str) (headers : Headers)
      (transform : Option HtmlTransform)
deriving DecidableEq

/-- A handler run: the returned response plus the outbound requests the
handler issued, in order (so "no outbound call" and "no retry" are
statable). -/
structure HandlerResult where
  response : HResponse
  outboundCalls : List OutboundRequest
deriving DecidableEq

/-- The second route lookup of `handleRequest` (worker.ts lines 330-340):
find the first entry whose pattern, stripped of a trailing `/*`, is a
plain string prefix of the path — note there is no `/`-boundary check
here, unlike `matchesRoutePath` — then strip the wildcard for the HTML
transformations; `?.[0] || ""` yields the empty string when nothing is
found. -/
def findRoutePath (pathname : Str) (routes : RouteConfig) : Str :=
  ((routes.find? (fun e => jsStartsWith pathname (stripWildcardPattern e.1))).map
    (fun e => e.1)).getD []

/-- The `transformPath` of `handleRequest` (worker.ts lines 337-340): the
result of the second lookup with its trailing `/*` removed. -/
def findTransformPath (pathname : Str) (routes : RouteConfig) : Str :=
  stripWildcardPattern (findRoutePath pathname routes)

/-- The `isHtml` classification of `handleRequest` (worker.ts lines
372-376). -/
def isHtmlResponse (contentType pathname : Str) : Bool :=
  jsIncludes (lowerStr contentType) (str "text/html") ||
  jsIncludes (lowerStr contentType) (str "application/xhtml+xml") ||
  jsEndsWith (lowerStr pathname) (str ".html")

/-- The `hasRestrictiveCache` test of `handleRequest` (worker.ts lines
383-387); a missing or empty header value is falsy. -/
def hasRestrictiveCache (upstreamCacheControl : Option Str) : Bool :=
  match upstreamCacheControl with
  | none => false
  | some cc =>
    jsIncludes cc (str "max-age=0") || jsIncludes cc (str "no-cache") ||
    jsIncludes cc (str "no-store") || jsIncludes cc (str "must-revalidate")

/-- The caching decision of `handleRequest` (worker.ts lines 393-409)
applied to the copied headers. -/
def applyCacheHeaders (newHeaders : Headers) (isHashedAsset isImage cacheImages
    hasRestrictive isHtml : Bool) : Headers :=
  if isHashedAsset && hasRestrictive then
    newHeaders.set (str "Cache-Control") (str "public, max-age=31536000, immutable")
  else if isImage && cacheImages && hasRestrictive then
    newHeaders.set (str "Cache-Control") (str "public, max-age=604800")
  else if !(newHeaders.has (str "Cache-Control")) then
    newHeaders.set (str "Cache-Control")
      (if isHtml then str "no-cache" else str "public, max-age=31536000")
  else newHeaders

/-- Embeds `handleRequest` (worker.ts lines 312-441).  The top-level
try/catch maps the one reachable throw inside `computeRedirectTarget`
(an invalid target URL) to a 500 whose body text is abstracted as
`Error: Invalid URL`. -/
def handleRequest (request : HRequest) (env : Env) (fetchOutcome : FetchOutcome) :
    HandlerResult :=
  let url := request.url
  let routes := getRoutes env
  match computeRedirectTarget url routes with
  | .noMatch => ⟨.passThrough, []⟩
  | .err => ⟨.response 500 (str "Error: Invalid URL") ⟨[]⟩ none, []⟩
  | .found m =>
    if m.type = .redirect then ⟨.redirect302 m.targetUrl, []⟩
    else
      let routePath := findRoutePath url.pathname routes
      let transformPath := stripWildcardPattern routePath
      let modifiedHeaders := request.headers.delete (str "host")
      if request.headers.get (str "X-Routing-Loop-Detection") =
          some (str "route-subdomain-to-path") then
        ⟨.response 508 (str "Routing loop detected") ⟨[]⟩ none, []⟩
      else
        let outHeaders := modifiedHeaders.set (str "X-Routing-Loop-Detection")
          (str "route-subdomain-to-path")
        let call : OutboundRequest := ⟨m.targetUrl, outHeaders⟩
        match fetchOutcome with
        | .failure =>
          ⟨.response 502
            (str "Failed to connect to origin server: " ++ m.targetUrl.origin)
            ⟨[]⟩ none, [call]⟩
        | .ok resp =>
          let contentType := (resp.headers.get (str "content-type")).getD []
          let isHtml := isHtmlResponse contentType url.pathname
          let cacheImages := getCacheConfig env routePath
          let restrictive := hasRestrictiveCache (resp.headers.get (str "Cache-Control"))
          let newHeaders := applyCacheHeaders resp.headers (hasContentHash url.pathname)
            (isImageFile url.pathname) cacheImages restrictive isHtml
          let transform : Option HtmlTransform :=
            if isHtml then some ⟨⟨transformPath, url, m.targetUrl⟩, transformPath⟩
            else none
          ⟨.response resp.status resp.body newHeaders transform, [call]⟩

/-! Support lemmas about the string layer. -/

theorem jsStartsWith_iff (s pat : Str) : jsStartsWith s pat = true ↔ pat <+: s := by
  simpa [jsStartsWith] using List.isPrefixOf_iff_prefix

theorem jsEndsWith_iff (s pat : Str) : jsEndsWith s pat = true ↔ pat <:+ s := by
  simpa [jsEndsWith] using List.isSuffixOf_iff_suffix

theorem jsStartsWith_append_self (a b : Str) : jsStartsWith (a ++ b) a = true :=
  (jsStartsWith_iff _ _).mpr (List.prefix_append a b)

theorem jsEndsWith_append_self (a b : Str) : jsEndsWith (a ++ b) b = true :=
  (jsEndsWith_iff _ _).mpr (List.suffix_append a b)

theorem stripWildcardPattern_append (P : Str) :
    stripWildcardPattern (P ++ str "/*") = P := by
  have h : jsEndsWith (P ++ str "/*") (str "/*") = true := jsEndsWith_append_self _ _
  simp only [stripWildcardPattern, h, if_true]
  have hlen : (P ++ str "/*").length - 2 = P.length := by
    simp [List.length_append, str]
  rw [hlen]
  exact List.take_left P (str "/*")

theorem jsIncludes_of_suffix (pat : Str) (hne : pat ≠ []) :
    ∀ T : Str, jsIncludes (T ++ pat) pat = true := by
  intro T
  induction T with
  | nil =>
    match hp : pat, hne with
    | c :: rest, _ => simp [jsIncludes, List.isPrefixOf_iff_prefix]
  | cons c T ih =>
    simp only [List.cons_append, jsIncludes, Bool.or_eq_true]
    exact Or.inr ih

theorem jsIncludes_cons_false {pat : Str} {c : Char} {rest : Str}
    (h : jsIncludes (c :: rest) pat = false) :
    pat.isPrefixOf (c :: rest) = false ∧ jsIncludes rest pat = false := by
  simp only [jsIncludes, Bool.or_eq_false_iff] at h
  exact h

theorem jsReplaceFirst_slashStar (T : Str) (h : jsIncludes T (str "/*") = false) :
    jsReplaceFirst (str "/*") [] (T ++ str "/*") = T := by
  induction T with
  | nil =>
    simp [jsReplaceFirst, str, List.isPrefixOf]
  | cons c T ih =>
    obtain ⟨hpre, hinc⟩ := jsIncludes_cons_false h
    have hnotpre : List.isPrefixOf (str "/*") (c :: (T ++ str "/*")) = false := by
      rw [Bool.eq_false_iff]
      intro hp
      have hp2 : (str "/*") <+: (c :: (T ++ str "/*")) := List.isPrefixOf_iff_prefix.mp hp
      have hsplit : '/' = c ∧ (['*'] : Str) <+: (T ++ str "/*") := by
        simpa [str, List.cons_prefix_cons] using hp2
      obtain ⟨rfl, hstar⟩ := hsplit
      cases T with
      | nil =>
        have h2 : '*' = '/' ∧ ([] : Str) <+: ['*'] := by
          simpa [str, List.cons_prefix_cons] using hstar
        exact absurd h2.1 (by decide)
      | cons d T2 =>
        have h2 : '*' = d ∧ ([] : Str) <+: (T2 ++ str "/*") := by
          simpa [str, List.cons_prefix_cons] using hstar
        obtain ⟨rfl, -⟩ := h2
        have h3 : List.isPrefixOf (str "/*") ('/' :: '*' :: T2) = true := by
          simp [str, List.isPrefixOf]
        rw [h3] at hpre
        exact absurd hpre (by decide)
    simp only [List.cons_append, jsReplaceFirst, List.append_eq, hnotpre,
      Bool.false_eq_true, if_false, List.cons.injEq, true_and]
    simpa using ih hinc

theorem find?_first {α : Type} (p : α → Bool) :
    ∀ (l : List α) (a : α), l.find? p = some a →
      ∃ l₁ l₂, l = l₁ ++ a :: l₂ ∧ p a = true ∧ ∀ x ∈ l₁, p x = false := by
  intro l
  induction l with
  | nil => intro a h; simp [List.find?] at h
  | cons b t ih =>
    intro a h
    by_cases hb : p b = true
    · rw [List.find?_cons_of_pos t hb] at h
      obtain rfl : b = a := by injection h
      exact ⟨[], t, rfl, hb, by simp⟩
    · rw [List.find?_cons_of_neg t hb] at h
      obtain ⟨l₁, l₂, rfl, hpa, hall⟩ := ih a h
      refine ⟨b :: l₁, l₂, rfl, hpa, ?_⟩
      intro x hx
      rcases List.mem_cons.mp hx with rfl | hx
      · exact Bool.eq_false_iff.mpr hb
      · exact hall x hx

/-! Support lemmas about the URL model. -/

theorem splitFirst_spec (pat : Str) :
    ∀ (s a b : Str), splitFirst pat s = some (a, b) → s = a ++ pat ++ b := by
  intro s
  induction s with
  | nil =>
    intro a b h
    by_cases hp : pat.isPrefixOf ([] : Str) = true
    · have : pat = [] := by simpa [List.isPrefixOf_iff_prefix] using hp
      simp [splitFirst, hp] at h
      obtain ⟨rfl, rfl⟩ := h
      simp [this]
    · simp [splitFirst, hp] at h
  | cons c rest ih =>
    intro a b h
    by_cases hp : pat.isPrefixOf (c :: rest) = true
    · simp only [splitFirst, hp, if_true, Option.some.injEq, Prod.mk.injEq] at h
      obtain ⟨rfl, rfl⟩ := h
      obtain ⟨t, ht⟩ := List.isPrefixOf_iff_prefix.mp hp
      conv_lhs => rw [← ht]
      rw [← ht]
      simp [List.drop_left]
    · simp only [splitFirst, hp, Bool.false_eq_true, if_false] at h
      match hsf : splitFirst pat rest with
      | some (a2, b2) =>
        rw [hsf] at h
        simp only [Option.some.injEq, Prod.mk.injEq] at h
        obtain ⟨rfl, rfl⟩ := h
        have := ih a2 b2 hsf
        simp [this]
      | none => rw [hsf] at h; simp at h

theorem dropWhile_head_false {p : Char → Bool} :
    ∀ (l : Str) {c t}, l.dropWhile p = c :: t → p c = false := by
  intro l
  induction l with
  | nil => intro c t h; simp [List.dropWhile] at h
  | cons a l ih =>
    intro c t h
    by_cases ha : p a = true
    · rw [List.dropWhile_cons_of_pos ha] at h
      exact ih h
    · rw [List.dropWhile_cons_of_neg ha] at h
      obtain ⟨rfl, -⟩ : a = c ∧ l = t := by
        have h2 := List.cons.injEq a l c t ▸ h
        exact h2
      exact Bool.eq_false_iff.mpr ha

theorem mkParsedUrl_scheme (scheme host tail : Str) :
    (mkParsedUrl scheme host tail).scheme = scheme := by
  cases tail with
  | nil => rfl
  | cons c t2 =>
    by_cases hc : (c == '?') = true
    · simp [mkParsedUrl, hc]
    · simp [mkParsedUrl, hc]

theorem mkParsedUrl_host (scheme host tail : Str) :
    (mkParsedUrl scheme host tail).host = host := by
  cases tail with
  | nil => rfl
  | cons c t2 =>
    by_cases hc : (c == '?') = true
    · simp [mkParsedUrl, hc]
    · simp [mkParsedUrl, hc]

theorem mkParsedUrl_pathname_slash (scheme host tail : Str)
    (ht : ∀ c t2, tail = c :: t2 → hostChar c = false) :
    jsStartsWith (mkParsedUrl scheme host tail).pathname (str "/") = true := by
  cases tail with
  | nil =>
    show jsStartsWith (str "/") (str "/") = true
    decide
  | cons c t2 =>
    by_cases hc : (c == '?') = true
    · simp [mkParsedUrl, hc, jsStartsWith, str, List.isPrefixOf]
    · have hslash : (c == '/') = true := by
        have hcc := ht c t2 rfl
        simp only [hostChar, Bool.and_eq_false_iff] at hcc
        rcases hcc with h1 | h2
        · simpa using h1
        · exact absurd (show (c == '?') = true by simpa using h2) hc
      obtain rfl : c = '/' := by simpa using hslash
      simp only [mkParsedUrl, hc, Bool.false_eq_true, if_false]
      rw [List.takeWhile_cons_of_pos (by decide)]
      simp [jsStartsWith, str, List.isPrefixOf]

theorem parseURL_elim {s : Str} {u : Url} (h : parseURL s = some u) :
    ∃ scheme rest, splitFirst (str "://") s = some (scheme, rest) ∧
      validScheme scheme = true ∧ rest.takeWhile hostChar ≠ [] ∧
      u = mkParsedUrl scheme (rest.takeWhile hostChar) (rest.dropWhile hostChar) := by
  unfold parseURL at h
  split at h
  · exact absurd h (by simp)
  · rename_i scheme rest hsf
    split at h
    · split at h
      · exact absurd h (by simp)
      · rename_i hvs hh
        exact ⟨scheme, rest, hsf, hvs, hh, (Option.some.inj h).symm⟩
    · exact absurd h (by simp)

theorem parseURL_origin_startsWith {s : Str} {u : Url} (h : parseURL s = some u) :
    u.origin <+: s ∧ jsStartsWith u.pathname (str "/") = true := by
  obtain ⟨scheme, rest, hsf, hvs, hh, rfl⟩ := parseURL_elim h
  have hs : s = scheme ++ str "://" ++ rest := splitFirst_spec _ _ _ _ hsf
  constructor
  · rw [Url.origin, mkParsedUrl_scheme, mkParsedUrl_host, hs]
    conv_rhs => rw [← List.takeWhile_append_dropWhile (p := hostChar) (l := rest)]
    rw [← List.append_assoc]
    exact List.prefix_append _ _
  · apply mkParsedUrl_pathname_slash
    intro c t2 hct
    exact dropWhile_head_false rest hct

/-! Route-matching lemmas. -/

/-- The matching rule exactly as the specification states it: a wildcard
entry (pattern ending in `/*`, with `P` the pattern minus that suffix)
matches the paths equal to `P`, equal to `P ++ "/"`, or having `P ++ "/"`
as a prefix; a non-wildcard entry matches only the path equal to its
pattern. -/
def specMatches (pathname routePath : Str) : Prop :=
  if jsEndsWith routePath (str "/*") = true then
    pathname = stripWildcardPattern routePath ∨
    pathname = stripWildcardPattern routePath ++ str "/" ∨
    (stripWildcardPattern routePath ++ str "/") <+: pathname
  else pathname = routePath

instance (pathname routePath : Str) : Decidable (specMatches pathname routePath) := by
  unfold specMatches
  infer_instance

theorem matchesRoutePath_iff (pathname routePath : Str) :
    matchesRoutePath pathname routePath = true ↔ specMatches pathname routePath := by
  unfold matchesRoutePath specMatches
  by_cases h : jsEndsWith routePath (str "/*") = true
  · simp [h, jsStartsWith_iff, or_assoc]
  · simp [h]

theorem matchesRoutePath_startsWith {pathname routePath : Str}
    (h : matchesRoutePath pathname routePath = true) :
    jsStartsWith pathname (stripWildcardPattern routePath) = true := by
  rw [jsStartsWith_iff]
  rw [matchesRoutePath_iff] at h
  unfold specMatches at h
  by_cases hw : jsEndsWith routePath (str "/*") = true
  · rw [if_pos hw] at h
    rcases h with h | h | h
    · exact h ▸ List.prefix_refl _
    · exact h ▸ List.prefix_append _ _
    · exact (List.prefix_append _ (str "/")).trans h
  · rw [if_neg hw] at h
    subst h
    unfold stripWildcardPattern
    rw [if_neg hw]

theorem matchesRoutePath_wildcard_sub (P rest : Str) :
    matchesRoutePath (P ++ (str "/" ++ rest)) (P ++ str "/*") = true := by
  rw [matchesRoutePath_iff]
  unfold specMatches
  rw [if_pos (jsEndsWith_append_self P (str "/*"))]
  rw [stripWildcardPattern_append]
  refine Or.inr (Or.inr ?_)
  rw [← List.append_assoc]
  exact List.prefix_append _ _

theorem matchesRoutePath_wildcard_exact (P : Str) :
    matchesRoutePath P (P ++ str "/*") = true := by
  rw [matchesRoutePath_iff]
  unfold specMatches
  rw [if_pos (jsEndsWith_append_self P (str "/*"))]
  rw [stripWildcardPattern_append]
  exact Or.inl rfl

theorem matchesRoutePath_wildcard_slash (P : Str) :
    matchesRoutePath (P ++ str "/") (P ++ str "/*") = true := by
  rw [matchesRoutePath_iff]
  unfold specMatches
  rw [if_pos (jsEndsWith_append_self P (str "/*"))]
  rw [stripWildcardPattern_append]
  exact Or.inr (Or.inl rfl)

theorem append_ne_of_ne_nil (P extra : Str) (h : extra ≠ []) : P ++ extra ≠ P := by
  intro hEq
  have hlen := congrArg List.length hEq
  rw [List.length_append] at hlen
  have : extra.length = 0 := by omega
  exact h (List.length_eq_zero.mp this)

theorem extractRemainingPath_wildcard (P rest : Str) :
    extractRemainingPath (P ++ (str "/" ++ rest)) (P ++ str "/*") = str "/" ++ rest := by
  unfold extractRemainingPath
  rw [stripWildcardPattern_append]
  have h1 : (P ++ (str "/" ++ rest) == P) = false :=
    beq_eq_false_iff_ne.mpr (append_ne_of_ne_nil P _ (by simp [str]))
  by_cases hrest : rest = []
  · subst hrest
    have h2 : (P ++ (str "/" ++ []) == P ++ str "/") = true := by
      rw [beq_iff_eq, List.append_nil]
    simp only [h1, h2, Bool.false_eq_true, if_false, if_true]
    simp
  · have h2 : (P ++ (str "/" ++ rest) == P ++ str "/") = false := by
      rw [beq_eq_false_iff_ne]
      intro hEq
      have h3 := List.append_cancel_left hEq
      exact absurd h3 (append_ne_of_ne_nil (str "/") rest hrest)
    simp only [h1, h2, Bool.false_eq_true, if_false]
    exact List.drop_left P _

theorem extractRemainingPath_exact (P : Str) :
    extractRemainingPath P (P ++ str "/*") = str "/" := by
  unfold extractRemainingPath
  rw [stripWildcardPattern_append]
  simp

theorem extractRemainingPath_slash (P : Str) :
    extractRemainingPath (P ++ str "/") (P ++ str "/*") = str "/" := by
  unfold extractRemainingPath
  rw [stripWildcardPattern_append]
  have h1 : (P ++ str "/" == P) = false :=
    beq_eq_false_iff_ne.mpr (append_ne_of_ne_nil P _ (by simp [str]))
  have h2 : (P ++ str "/" == P ++ str "/") = true := beq_iff_eq.mpr rfl
  simp only [h1, h2, Bool.false_eq_true, if_false, if_true]

/-! Content-hash regex lemmas. -/

theorem hashRunFrom_of_all (cls : Char → Bool) :
    ∀ (run : Str) (n : Nat) (ext : Str), run.all cls = true → 8 ≤ n + run.length →
      isHashExt ext = true → hashRunFrom cls n (run ++ ext) = true := by
  intro run
  induction run with
  | nil =>
    intro n ext hall hlen hext
    cases ext with
    | nil => exact absurd hext (by decide)
    | cons c t =>
      simp only [List.nil_append, hashRunFrom, Bool.or_eq_true, Bool.and_eq_true]
      refine Or.inl ⟨?_, hext⟩
      simp only [List.length_nil, Nat.add_zero] at hlen
      simpa using hlen
  | cons c run ih =>
    intro n ext hall hlen hext
    simp only [List.all_cons, Bool.and_eq_true] at hall
    simp only [List.cons_append, hashRunFrom, Bool.or_eq_true, Bool.and_eq_true]
    refine Or.inr ⟨hall.1, ?_⟩
    refine ih (n + 1) ext hall.2 ?_ hext
    simp only [List.length_cons] at hlen
    omega

theorem hashSearch_of_decomp (cls : Char → Bool) :
    ∀ (pre : Str) (d : Char) (run ext : Str), (d = '.' ∨ d = '-') →
      run.all cls = true → 8 ≤ run.length → isHashExt ext = true →
      hashSearch cls (pre ++ d :: (run ++ ext)) = true := by
  intro pre
  induction pre with
  | nil =>
    intro d run ext hd hall hlen hext
    simp only [List.nil_append, hashSearch, Bool.or_eq_true, Bool.and_eq_true]
    refine Or.inl ⟨?_, hashRunFrom_of_all cls run 0 ext hall (by omega) hext⟩
    rcases hd with rfl | rfl <;> simp
  | cons c pre ih =>
    intro d run ext hd hall hlen hext
    simp only [List.cons_append, hashSearch, Bool.or_eq_true]
    exact Or.inr (ih d run ext hd hall hlen hext)

theorem hasContentHash_of_decomp (pre : Str) (d : Char) (run ext : Str)
    (hd : d = '.' ∨ d = '-') (hall : run.all isAlnumChar = true)
    (hlen : 8 ≤ run.length) (hext : isHashExt ext = true) :
    hasContentHash (pre ++ d :: (run ++ ext)) = true := by
  unfold hasContentHash
  rw [Bool.or_eq_true]
  exact Or.inr (hashSearch_of_decomp isAlnumChar pre d run ext hd hall hlen hext)

/-! Reduction helpers for `computeRedirectTarget`. -/

theorem computeRedirectTarget_found (url : Url) (routes : RouteConfig)
    (rp tp : Str) (t : Url)
    (hmr : matchingRoute url.pathname routes = some (rp, tp))
    (hb : buildTargetUrl (parseTargetUrl tp).url (extractRemainingPath url.pathname rp) =
      some t) :
    computeRedirectTarget url routes =
      .found ⟨{ t with search := url.search },
        if (parseTargetUrl tp).isProxy then .proxy else .redirect⟩ := by
  unfold computeRedirectTarget
  rw [hmr]
  simp only []
  rw [hb]

theorem computeRedirectTarget_noMatch_iff (url : Url) (routes : RouteConfig) :
    computeRedirectTarget url routes = .noMatch ↔
      matchingRoute url.pathname routes = none := by
  unfold computeRedirectTarget
  cases hmr : matchingRoute url.pathname routes with
  | none => simp
  | some e =>
    obtain ⟨rp, tp⟩ := e
    simp only []
    cases hb : buildTargetUrl (parseTargetUrl tp).url (extractRemainingPath url.pathname rp) with
    | none => simp [hb]
    | some t => simp [hb]

/-! Claim theorems. -/

/-- C1: route resolution (`computeRedirectTarget`) selects the first entry
in table order that matches, where a wildcard entry with pattern `P/*`
matches exactly the paths equal to `P`, equal to `P ++ "/"`, or beginning
with `P ++ "/"`, and a non-wildcard entry matches only a path exactly
equal to its pattern; in particular, a path that merely extends a
pattern's prefix without a `/` boundary never matches that entry. -/
theorem c1_first_match_resolution :
    (∀ pathname routePath : Str,
        matchesRoutePath pathname routePath = true ↔ specMatches pathname routePath) ∧
    (∀ (pathname : Str) (routes : RouteConfig) (e : Str × Str),
        matchingRoute pathname routes = some e →
          ∃ l₁ l₂, routes = l₁ ++ e :: l₂ ∧ specMatches pathname e.1 ∧
            ∀ x ∈ l₁, ¬ specMatches pathname x.1) ∧
    (∀ (url : Url) (routes : RouteConfig),
        computeRedirectTarget url routes = .noMatch ↔
          ∀ e ∈ routes, ¬ specMatches url.pathname e.1) ∧
    (∀ P extra : Str, extra ≠ [] → ¬ (str "/") <+: extra →
        (jsEndsWith P (str "/*") = false → matchesRoutePath (P ++ extra) P = false) ∧
        matchesRoutePath (P ++ extra) (P ++ str "/*") = false) := by
  refine ⟨matchesRoutePath_iff, ?_, ?_, ?_⟩
  · intro pathname routes e hfind
    unfold matchingRoute at hfind
    obtain ⟨l₁, l₂, rfl, hpe, hall⟩ :=
      find?_first (fun e => matchesRoutePath pathname e.1) routes e hfind
    refine ⟨l₁, l₂, rfl, (matchesRoutePath_iff _ _).mp hpe, ?_⟩
    intro x hx hs
    have hmx := (matchesRoutePath_iff pathname x.1).mpr hs
    rw [hall x hx] at hmx
    exact absurd hmx (by decide)
  · intro url routes
    rw [computeRedirectTarget_noMatch_iff]
    unfold matchingRoute
    rw [List.find?_eq_none]
    constructor
    · intro hnone e he hs
      exact hnone e he ((matchesRoutePath_iff _ _).mpr hs)
    · intro hall e he hm
      exact hall e he ((matchesRoutePath_iff _ _).mp hm)
  · intro P extra hextra hslash
    constructor
    · intro hw
      simp only [matchesRoutePath, hw, Bool.false_eq_true, if_false]
      exact beq_eq_false_iff_ne.mpr (append_ne_of_ne_nil P extra hextra)
    · simp only [matchesRoutePath, jsEndsWith_append_self, if_true,
        stripWildcardPattern_append, Bool.or_eq_false_iff]
      refine ⟨⟨?_, ?_⟩, ?_⟩
      · exact beq_eq_false_iff_ne.mpr (append_ne_of_ne_nil P extra hextra)
      · rw [beq_eq_false_iff_ne]
        intro hEq
        have h3 : extra = str "/" := List.append_cancel_left hEq
        exact hslash (h3 ▸ List.prefix_refl _)
      · rw [Bool.eq_false_iff]
        intro hsw
        exact hslash ((List.prefix_append_right_inj P).mp
          ((jsStartsWith_iff _ _).mp hsw))

/-- Witness for C1 at concrete inputs: `/app-one/x` matches `/app-one/*`,
`/app-one-extra` does not, and a table with no matching entry yields
`noMatch`. -/
theorem c1_witness :
    matchesRoutePath (str "/app-one/x") (str "/app-one/*") = true ∧
    matchesRoutePath (str "/app-one-extra") (str "/app-one/*") = false ∧
    (computeRedirectTarget ⟨str "https", str "h", str "/nope", []⟩
        [(str "/app", str "https://e.com")] = .noMatch ↔
      ∀ e ∈ [(str "/app", str "https://e.com")], ¬ specMatches (str "/nope") e.1) := by
  refine ⟨?_, ?_, ?_⟩
  · exact (c1_first_match_resolution.1 (str "/app-one/x") (str "/app-one/*")).mpr (by decide)
  · have h := (c1_first_match_resolution.2.2.2 (str "/app-one") (str "-extra")
      (by decide) (by decide)).2
    rw [(by decide : str "/app-one" ++ str "-extra" = str "/app-one-extra"),
        (by decide : str "/app-one" ++ str "/*" = str "/app-one/*")] at h
    exact h
  · exact c1_first_match_resolution.2.2.1 ⟨str "https", str "h", str "/nope", []⟩
      [(str "/app", str "https://e.com")]

theorem parseTargetUrl_proxy (X : Str) :
    parseTargetUrl (str "proxy:" ++ X) = ⟨X, true⟩ := by
  simp only [parseTargetUrl, jsStartsWith_append_self, if_true]
  rw [(by decide : str "proxy:" = ['p', 'r', 'o', 'x', 'y', ':'])]
  rfl

theorem buildTargetUrl_wildcard (T remaining : Str) (u : Url)
    (hT : parseURL T = some u) (hTnw : jsIncludes T (str "/*") = false)
    (hrem : jsStartsWith remaining (str "/") = true) :
    buildTargetUrl (T ++ str "/*") remaining =
      some ⟨u.scheme, u.host,
        if u.pathname = str "/" then remaining else u.pathname ++ remaining, []⟩ := by
  unfold buildTargetUrl
  rw [if_pos (jsIncludes_of_suffix (str "/*") (by decide) T)]
  rw [jsReplaceFirst_slashStar T hTnw, hT]
  simp only []
  unfold urlFromPath
  by_cases hroot : u.pathname = str "/"
  · rw [if_pos hroot, if_pos hrem]
  · rw [if_neg hroot]
    have hsw : jsStartsWith (u.pathname ++ remaining) (str "/") = true := by
      rw [jsStartsWith_iff]
      exact ((jsStartsWith_iff _ _).mp (parseURL_origin_startsWith hT).2).trans
        (List.prefix_append _ _)
    rw [if_pos hsw]

/-- C2: a wildcard route `P/* → proxy:T/*` sends `P/x/y?q` to `T/x/y?q`
(the remaining path is appended after the target's own path component —
concatenation when that path is non-root, verbatim from the origin's root
otherwise — and the query string is copied), and sends bare `P` or `P/`
to `T/` (the remaining path is the single character `/`). -/
theorem c2_wildcard_routes (P T rest q ss sh : Str) (u : Url)
    (hT : parseURL T = some u) (hTnw : jsIncludes T (str "/*") = false) :
    computeRedirectTarget ⟨ss, sh, P ++ (str "/" ++ rest), q⟩
        [(P ++ str "/*", str "proxy:" ++ (T ++ str "/*"))] =
      .found ⟨⟨u.scheme, u.host,
        if u.pathname = str "/" then str "/" ++ rest
        else u.pathname ++ (str "/" ++ rest), q⟩, .proxy⟩ ∧
    computeRedirectTarget ⟨ss, sh, P, q⟩
        [(P ++ str "/*", str "proxy:" ++ (T ++ str "/*"))] =
      .found ⟨⟨u.scheme, u.host,
        if u.pathname = str "/" then str "/" else u.pathname ++ str "/", q⟩, .proxy⟩ ∧
    computeRedirectTarget ⟨ss, sh, P ++ str "/", q⟩
        [(P ++ str "/*", str "proxy:" ++ (T ++ str "/*"))] =
      .found ⟨⟨u.scheme, u.host,
        if u.pathname = str "/" then str "/" else u.pathname ++ str "/", q⟩, .proxy⟩ := by
  have hpt : parseTargetUrl (str "proxy:" ++ (T ++ str "/*")) = ⟨T ++ str "/*", true⟩ :=
    parseTargetUrl_proxy _
  refine ⟨?_, ?_, ?_⟩
  · have hmr : matchingRoute (P ++ (str "/" ++ rest))
        [(P ++ str "/*", str "proxy:" ++ (T ++ str "/*"))] =
        some (P ++ str "/*", str "proxy:" ++ (T ++ str "/*")) := by
      unfold matchingRoute
      exact List.find?_cons_of_pos _ (matchesRoutePath_wildcard_sub P rest)
    have hb : buildTargetUrl
        (parseTargetUrl (str "proxy:" ++ (T ++ str "/*"))).url
        (extractRemainingPath (P ++ (str "/" ++ rest)) (P ++ str "/*")) =
        some ⟨u.scheme, u.host,
          if u.pathname = str "/" then str "/" ++ rest
          else u.pathname ++ (str "/" ++ rest), []⟩ := by
      rw [hpt, extractRemainingPath_wildcard]
      exact buildTargetUrl_wildcard T (str "/" ++ rest) u hT hTnw
        ((jsStartsWith_iff _ _).mpr (List.prefix_append _ _))
    have h := computeRedirectTarget_found ⟨ss, sh, P ++ (str "/" ++ rest), q⟩
      [(P ++ str "/*", str "proxy:" ++ (T ++ str "/*"))]
      (P ++ str "/*") (str "proxy:" ++ (T ++ str "/*")) _ hmr hb
    rw [hpt] at h
    exact h
  · have hmr : matchingRoute P [(P ++ str "/*", str "proxy:" ++ (T ++ str "/*"))] =
        some (P ++ str "/*", str "proxy:" ++ (T ++ str "/*")) := by
      unfold matchingRoute
      exact List.find?_cons_of_pos _ (matchesRoutePath_wildcard_exact P)
    have hb : buildTargetUrl
        (parseTargetUrl (str "proxy:" ++ (T ++ str "/*"))).url
        (extractRemainingPath P (P ++ str "/*")) =
        some ⟨u.scheme, u.host,
          if u.pathname = str "/" then str "/" else u.pathname ++ str "/", []⟩ := by
      rw [hpt, extractRemainingPath_exact]
      exact buildTargetUrl_wildcard T (str "/") u hT hTnw (by decide)
    have h := computeRedirectTarget_found ⟨ss, sh, P, q⟩
      [(P ++ str "/*", str "proxy:" ++ (T ++ str "/*"))]
      (P ++ str "/*") (str "proxy:" ++ (T ++ str "/*")) _ hmr hb
    rw [hpt] at h
    exact h
  · have hmr : matchingRoute (P ++ str "/")
        [(P ++ str "/*", str "proxy:" ++ (T ++ str "/*"))] =
        some (P ++ str "/*", str "proxy:" ++ (T ++ str "/*")) := by
      unfold matchingRoute
      exact List.find?_cons_of_pos _ (matchesRoutePath_wildcard_slash P)
    have hb : buildTargetUrl
        (parseTargetUrl (str "proxy:" ++ (T ++ str "/*"))).url
        (extractRemainingPath (P ++ str "/") (P ++ str "/*")) =
        some ⟨u.scheme, u.host,
          if u.pathname = str "/" then str "/" else u.pathname ++ str "/", []⟩ := by
      rw [hpt, extractRemainingPath_slash]
      exact buildTargetUrl_wildcard T (str "/") u hT hTnw (by decide)
    have h := computeRedirectTarget_found ⟨ss, sh, P ++ str "/", q⟩
      [(P ++ str "/*", str "proxy:" ++ (T ++ str "/*"))]
      (P ++ str "/*") (str "proxy:" ++ (T ++ str "/*")) _ hmr hb
    rw [hpt] at h
    exact h

/-- Witness for C2 at the specification's own example shapes:
`/app-one/x/y?q=1` against `/app-one/* → proxy:https://app-one.example.com/*`
resolves to `https://app-one.example.com/x/y?q=1`, and bare `/app-one`
resolves to `https://app-one.example.com/`. -/
theorem c2_witness :
    computeRedirectTarget
        ⟨str "https", str "source.example.com", str "/app-one/x/y", str "?q=1"⟩
        [(str "/app-one/*", str "proxy:https://app-one.example.com/*")] =
      .found ⟨⟨str "https", str "app-one.example.com", str "/x/y", str "?q=1"⟩, .proxy⟩ ∧
    computeRedirectTarget
        ⟨str "https", str "source.example.com", str "/app-one", str "?q=1"⟩
        [(str "/app-one/*", str "proxy:https://app-one.example.com/*")] =
      .found ⟨⟨str "https", str "app-one.example.com", str "/", str "?q=1"⟩, .proxy⟩ := by
  have h := c2_wildcard_routes (str "/app-one") (str "https://app-one.example.com")
    (str "x/y") (str "?q=1") (str "https") (str "source.example.com")
    ⟨str "https", str "app-one.example.com", str "/", []⟩ (by decide) (by decide)
  constructor
  · have h1 := h.1
    rw [(by decide : str "/app-one" ++ (str "/" ++ str "x/y") = str "/app-one/x/y"),
        (by decide : str "/app-one" ++ str "/*" = str "/app-one/*"),
        (by decide : str "proxy:" ++ (str "https://app-one.example.com" ++ str "/*") =
          str "proxy:https://app-one.example.com/*")] at h1
    rw [h1]
    simp only [(by decide :
      ((⟨str "https", str "app-one.example.com", str "/", []⟩ : Url).pathname = str "/") = True),
      if_true]
    rw [(by decide : str "/" ++ str "x/y" = str "/x/y")]
  · have h2 := h.2.1
    rw [(by decide : str "/app-one" ++ str "/*" = str "/app-one/*"),
        (by decide : str "proxy:" ++ (str "https://app-one.example.com" ++ str "/*") =
          str "proxy:https://app-one.example.com/*")] at h2
    rw [h2]
    simp only [(by decide :
      ((⟨str "https", str "app-one.example.com", str "/", []⟩ : Url).pathname = str "/") = True),
      if_true]

/-- C3: a matched entry whose target carries no wildcard marker resolves
to the configured target URL exactly as given, ignoring any remaining
path, and for a redirect entry the handler returns a 302 whose location
is that target with the incoming URL's query string copied onto it
unconditionally (including when the incoming query is empty). -/
theorem c3_redirect_exact_target (req : HRequest) (env : Env) (f : FetchOutcome)
    (routePath target : Str) (u : Url)
    (hfind : matchingRoute req.url.pathname (getRoutes env) = some (routePath, target))
    (hnw : jsIncludes (parseTargetUrl target).url (str "/*") = false)
    (hparse : parseURL (parseTargetUrl target).url = some u)
    (hk : (parseTargetUrl target).isProxy = false) :
    computeRedirectTarget req.url (getRoutes env) =
      .found ⟨{ u with search := req.url.search }, .redirect⟩ ∧
    handleRequest req env f = ⟨.redirect302 { u with search := req.url.search }, []⟩ := by
  have hb : buildTargetUrl (parseTargetUrl target).url
      (extractRemainingPath req.url.pathname routePath) = some u := by
    unfold buildTargetUrl
    rw [if_neg (by simp [hnw])]
    exact hparse
  have hc := computeRedirectTarget_found req.url (getRoutes env) routePath target u hfind hb
  rw [hk] at hc
  simp only [Bool.false_eq_true, if_false] at hc
  refine ⟨hc, ?_⟩
  simp only [handleRequest, hc, if_true]

/-- Witness for C3: the exact redirect entry `/about →
https://example.com/about-page` with an empty incoming query yields a 302
to `https://example.com/about-page` with empty query. -/
theorem c3_witness :
    computeRedirectTarget ⟨str "https", str "source.example.com", str "/about", []⟩
        (getRoutes ⟨some [(str "/about", str "https://example.com/about-page")], .absent⟩) =
      .found ⟨⟨str "https", str "example.com", str "/about-page", []⟩, .redirect⟩ ∧
    handleRequest
        ⟨⟨str "https", str "source.example.com", str "/about", []⟩, ⟨[]⟩⟩
        ⟨some [(str "/about", str "https://example.com/about-page")], .absent⟩ .failure =
      ⟨.redirect302 ⟨str "https", str "example.com", str "/about-page", []⟩, []⟩ := by
  exact c3_redirect_exact_target
    ⟨⟨str "https", str "source.example.com", str "/about", []⟩, ⟨[]⟩⟩
    ⟨some [(str "/about", str "https://example.com/about-page")], .absent⟩ .failure
    (str "/about") (str "https://example.com/about-page")
    ⟨str "https", str "example.com", str "/about-page", []⟩
    (by decide) (by decide) (by decide) (by decide)

/-- C4: a proxy match whose inbound request already carries the
loop-detection marker header is answered with the fixed 508 response and
no outbound call is issued. -/
theorem c4_loop_guard (req : HRequest) (env : Env) (f : FetchOutcome) (m : RouteMatch)
    (hmatch : computeRedirectTarget req.url (getRoutes env) = .found m)
    (hproxy : m.type = .proxy)
    (hloop : req.headers.get (str "X-Routing-Loop-Detection") =
      some (str "route-subdomain-to-path")) :
    handleRequest req env f =
      ⟨.response 508 (str "Routing loop detected") ⟨[]⟩ none, []⟩ := by
  have hnr : ¬ m.type = RouteKind.redirect := by
    rw [hproxy]; intro hc; cases hc
  simp only [handleRequest, hmatch]
  rw [if_neg hnr, if_pos hloop]

/-- Witness for C4: a marked request for `/app-one/test` against the proxy
table returns 508 with no outbound call. -/
theorem c4_witness :
    handleRequest
        ⟨⟨str "https", str "source.example.com", str "/app-one/test", []⟩,
          ⟨[(str "X-Routing-Loop-Detection", str "route-subdomain-to-path")]⟩⟩
        ⟨some [(str "/app-one/*", str "proxy:https://app-one.example.com/*")], .absent⟩
        (.ok ⟨200, ⟨[]⟩, str "never fetched"⟩) =
      ⟨.response 508 (str "Routing loop detected") ⟨[]⟩ none, []⟩ := by
  exact c4_loop_guard
    ⟨⟨str "https", str "source.example.com", str "/app-one/test", []⟩,
      ⟨[(str "X-Routing-Loop-Detection", str "route-subdomain-to-path")]⟩⟩
    ⟨some [(str "/app-one/*", str "proxy:https://app-one.example.com/*")], .absent⟩
    (.ok ⟨200, ⟨[]⟩, str "never fetched"⟩)
    ⟨⟨str "https", str "app-one.example.com", str "/test", []⟩, .proxy⟩
    (by decide) (by decide) (by decide)

/-- C5: a configuration whose text fails to parse, or any of whose entries
fails structural validation (path not starting with `/`, or target — after
stripping the proxy/redirect marker and any wildcard marker — not parsing
as an absolute URL), yields the empty route table, and then every request
receives the pass-through signal. -/
theorem c5_fail_open (env : Env)
    (hbad : env.ROUTES = none ∨
      ∃ routes, env.ROUTES = some routes ∧ validateRoutes routes = false) :
    getRoutes env = [] ∧
    (∀ routes : RouteConfig, validateRoutes routes = true ↔
      ∀ e ∈ routes, jsStartsWith e.1 (str "/") = true ∧ validTargetUrl e.2 = true) ∧
    (∀ (req : HRequest) (f : FetchOutcome), handleRequest req env f = ⟨.passThrough, []⟩) := by
  have hempty : getRoutes env = [] := by
    rcases hbad with h | ⟨routes, h, hval⟩
    · simp [getRoutes, h]
    · simp [getRoutes, h, hval]
  refine ⟨hempty, ?_, ?_⟩
  · intro routes
    unfold validateRoutes
    rw [List.all_eq_true]
    constructor
    · intro h e he
      have h2 := h e he
      rwa [Bool.and_eq_true] at h2
    · intro h e he
      rw [Bool.and_eq_true]
      exact h e he
  · intro req f
    have hnm : computeRedirectTarget req.url (getRoutes env) = .noMatch := by
      rw [computeRedirectTarget_noMatch_iff, hempty]
      rfl
    simp only [handleRequest, hnm]

/-- Witness for C5: a table whose single entry has a non-URL target is
discarded and the marked request passes through. -/
theorem c5_witness :
    getRoutes ⟨some [(str "/a", str "proxy:notaurl")], .absent⟩ = [] ∧
    (validateRoutes [(str "/a", str "proxy:notaurl")] = true ↔
      ∀ e ∈ [(str "/a", str "proxy:notaurl")],
        jsStartsWith e.1 (str "/") = true ∧ validTargetUrl e.2 = true) ∧
    handleRequest ⟨⟨str "https", str "h", str "/a", []⟩, ⟨[]⟩⟩
        ⟨some [(str "/a", str "proxy:notaurl")], .absent⟩ .failure =
      ⟨.passThrough, []⟩ := by
  have h := c5_fail_open ⟨some [(str "/a", str "proxy:notaurl")], .absent⟩
    (Or.inr ⟨[(str "/a", str "proxy:notaurl")], rfl, by decide⟩)
  exact ⟨h.1, h.2.1 [(str "/a", str "proxy:notaurl")],
    h.2.2 ⟨⟨str "https", str "h", str "/a", []⟩, ⟨[]⟩⟩ .failure⟩

/-- C9: on a proxy match without the loop marker, a transport-level fetch
failure yields a 502 whose body names the unreachable origin, and exactly
one outbound call was issued (no retry). -/
theorem c9_bad_gateway (req : HRequest) (env : Env) (m : RouteMatch)
    (hmatch : computeRedirectTarget req.url (getRoutes env) = .found m)
    (hproxy : m.type = .proxy)
    (hnoloop : ¬ req.headers.get (str "X-Routing-Loop-Detection") =
      some (str "route-subdomain-to-path")) :
    handleRequest req env .failure =
      ⟨.response 502 (str "Failed to connect to origin server: " ++ m.targetUrl.origin)
        ⟨[]⟩ none,
       [⟨m.targetUrl, (req.headers.delete (str "host")).set
          (str "X-Routing-Loop-Detection") (str "route-subdomain-to-path")⟩]⟩ := by
  have hnr : ¬ m.type = RouteKind.redirect := by
    rw [hproxy]; intro hc; cases hc
  simp only [handleRequest, hmatch]
  rw [if_neg hnr, if_neg hnoloop]

/-- Witness for C9: an unreachable origin for `/app-one/test` yields the
502 naming `https://app-one.example.com`, with a single outbound call. -/
theorem c9_witness :
    handleRequest ⟨⟨str "https", str "source.example.com", str "/app-one/test", []⟩, ⟨[]⟩⟩
        ⟨some [(str "/app-one/*", str "proxy:https://app-one.example.com/*")], .absent⟩
        .failure =
      ⟨.response 502 (str "Failed to connect to origin server: " ++
          (⟨str "https", str "app-one.example.com", str "/test", []⟩ : Url).origin)
        ⟨[]⟩ none,
       [⟨⟨str "https", str "app-one.example.com", str "/test", []⟩,
         Headers.set (Headers.delete ⟨[]⟩ (str "host"))
           (str "X-Routing-Loop-Detection") (str "route-subdomain-to-path")⟩]⟩ := by
  exact c9_bad_gateway
    ⟨⟨str "https", str "source.example.com", str "/app-one/test", []⟩, ⟨[]⟩⟩
    ⟨some [(str "/app-one/*", str "proxy:https://app-one.example.com/*")], .absent⟩
    ⟨⟨str "https", str "app-one.example.com", str "/test", []⟩, .proxy⟩
    (by decide) (by decide) (by decide)

/-- C10: the loop guard applies only to proxy matches — a redirect match
returns its 302 regardless of the marker header, an unmatched request
passes through regardless of the marker, and a 508 handler response can
only arise from a proxy match. -/
theorem c10_guard_only_proxy (req : HRequest) (env : Env) (f : FetchOutcome) :
    (∀ m, computeRedirectTarget req.url (getRoutes env) = .found m →
      m.type = .redirect → handleRequest req env f = ⟨.redirect302 m.targetUrl, []⟩) ∧
    (computeRedirectTarget req.url (getRoutes env) = .noMatch →
      handleRequest req env f = ⟨.passThrough, []⟩) ∧
    (∀ b hd t, (handleRequest req env f).response = .response 508 b hd t →
      ∃ m, computeRedirectTarget req.url (getRoutes env) = .found m ∧
        m.type = .proxy) := by
  refine ⟨?_, ?_, ?_⟩
  · intro m hm hr
    simp only [handleRequest, hm]
    rw [if_pos hr]
  · intro hnm
    simp only [handleRequest, hnm]
  · intro b hd t hresp
    cases hc : computeRedirectTarget req.url (getRoutes env) with
    | noMatch =>
      simp only [handleRequest, hc] at hresp
      cases hresp
    | err =>
      simp only [handleRequest, hc] at hresp
      injection hresp with h1
      exact absurd h1 (by decide)
    | found m =>
      by_cases hr : m.type = RouteKind.redirect
      · simp only [handleRequest, hc] at hresp
        rw [if_pos hr] at hresp
        cases hresp
      · have hmt : m.type = RouteKind.proxy := by
          cases hmt2 : m.type
          · rfl
          · exact absurd hmt2 hr
        exact ⟨m, rfl, hmt⟩

/-- Witness for C10: a redirect match with the loop marker still returns
its 302, and a marked request matching nothing passes through. -/
theorem c10_witness :
    handleRequest
        ⟨⟨str "https", str "source.example.com", str "/", []⟩,
          ⟨[(str "X-Routing-Loop-Detection", str "route-subdomain-to-path")]⟩⟩
        ⟨some [(str "/", str "https://example.com/tools")], .absent⟩ .failure =
      ⟨.redirect302 ⟨str "https", str "example.com", str "/tools", []⟩, []⟩ ∧
    handleRequest
        ⟨⟨str "https", str "source.example.com", str "/nope", []⟩,
          ⟨[(str "X-Routing-Loop-Detection", str "route-subdomain-to-path")]⟩⟩
        ⟨some [(str "/", str "https://example.com/tools")], .absent⟩ .failure =
      ⟨.passThrough, []⟩ := by
  constructor
  · exact (c10_guard_only_proxy
      ⟨⟨str "https", str "source.example.com", str "/", []⟩,
        ⟨[(str "X-Routing-Loop-Detection", str "route-subdomain-to-path")]⟩⟩
      ⟨some [(str "/", str "https://example.com/tools")], .absent⟩ .failure).1
      ⟨⟨str "https", str "example.com", str "/tools", []⟩, .redirect⟩
      (by decide) (by decide)
  · exact (c10_guard_only_proxy
      ⟨⟨str "https", str "source.example.com", str "/nope", []⟩,
        ⟨[(str "X-Routing-Loop-Detection", str "route-subdomain-to-path")]⟩⟩
      ⟨some [(str "/", str "https://example.com/tools")], .absent⟩ .failure).2.1
      (by decide)

theorem applyCacheHeaders_hashed (h : Headers) (b c htmlb : Bool) :
    applyCacheHeaders h true b c true htmlb =
      h.set (str "Cache-Control") (str "public, max-age=31536000, immutable") := by
  simp [applyCacheHeaders]

/-- C6: a proxied response whose request path carries a content hash — an
alphanumeric run of at least 8 characters, preceded by `.` or `-`,
immediately before a `.js`/`.css` extension — and whose upstream
`Cache-Control` contains one of the restrictive tokens gets
`public, max-age=31536000, immutable`; the same upstream header on
`script.js` (no hash run) is left untouched. -/
theorem c6_hashed_asset_cache (req : HRequest) (env : Env) (resp : UpstreamResponse)
    (m : RouteMatch) (cc pre run ext : Str) (d : Char)
    (hmatch : computeRedirectTarget req.url (getRoutes env) = .found m)
    (hproxy : m.type = .proxy)
    (hnoloop : ¬ req.headers.get (str "X-Routing-Loop-Detection") =
      some (str "route-subdomain-to-path"))
    (hcc : resp.headers.get (str "Cache-Control") = some cc)
    (hrestr : (jsIncludes cc (str "max-age=0") || jsIncludes cc (str "no-cache") ||
      jsIncludes cc (str "no-store") || jsIncludes cc (str "must-revalidate")) = true)
    (hpath : req.url.pathname = pre ++ d :: (run ++ ext))
    (hd : d = '.' ∨ d = '-')
    (hall : run.all isAlnumChar = true)
    (hlen : 8 ≤ run.length)
    (hext : ext = str ".js" ∨ ext = str ".css") :
    (∃ t, handleRequest req env (.ok resp) =
      ⟨.response resp.status resp.body
        (resp.headers.set (str "Cache-Control") (str "public, max-age=31536000, immutable")) t,
       [⟨m.targetUrl, (req.headers.delete (str "host")).set
          (str "X-Routing-Loop-Detection") (str "route-subdomain-to-path")⟩]⟩) ∧
    handleRequest
        ⟨⟨str "https", str "source.example.com", str "/app-one/script.js", []⟩, ⟨[]⟩⟩
        ⟨some [(str "/app-one/*", str "proxy:https://app-one.example.com/*")], .absent⟩
        (.ok ⟨200, ⟨[(str "content-type", str "application/javascript"),
          (str "Cache-Control", str "public, max-age=0, must-revalidate")]⟩, str "x"⟩) =
      ⟨.response 200 (str "x")
        ⟨[(str "content-type", str "application/javascript"),
          (str "Cache-Control", str "public, max-age=0, must-revalidate")]⟩ none,
       [⟨⟨str "https", str "app-one.example.com", str "/script.js", []⟩,
         Headers.set (Headers.delete ⟨[]⟩ (str "host"))
           (str "X-Routing-Loop-Detection") (str "route-subdomain-to-path")⟩]⟩ := by
  constructor
  · have hnr : ¬ m.type = RouteKind.redirect := by
      rw [hproxy]; intro hc; cases hc
    have hhash : hasContentHash req.url.pathname = true := by
      rw [hpath]
      refine hasContentHash_of_decomp pre d run ext hd hall hlen ?_
      rcases hext with rfl | rfl <;> decide
    have hrc : hasRestrictiveCache (resp.headers.get (str "Cache-Control")) = true := by
      rw [hcc]
      unfold hasRestrictiveCache
      exact hrestr
    have hmain : handleRequest req env (.ok resp) =
        ⟨.response resp.status resp.body
          (resp.headers.set (str "Cache-Control")
            (str "public, max-age=31536000, immutable"))
          (if isHtmlResponse ((resp.headers.get (str "content-type")).getD [])
              req.url.pathname = true then
            some ⟨⟨stripWildcardPattern (findRoutePath req.url.pathname (getRoutes env)),
                   req.url, m.targetUrl⟩,
                  stripWildcardPattern (findRoutePath req.url.pathname (getRoutes env))⟩
          else none),
         [⟨m.targetUrl, (req.headers.delete (str "host")).set
            (str "X-Routing-Loop-Detection") (str "route-subdomain-to-path")⟩]⟩ := by
      simp only [handleRequest, hmatch]
      rw [if_neg hnr, if_neg hnoloop]
      simp only [hhash, hrc, applyCacheHeaders_hashed]
    exact ⟨_, hmain⟩
  · decide

/-- Witness for C6: `/app-one/index-353f0761.js` with upstream
`public, max-age=0, must-revalidate` is served with the immutable
year-long cache header. -/
theorem c6_witness :
    ∃ t, handleRequest
        ⟨⟨str "https", str "source.example.com", str "/app-one/index-353f0761.js", []⟩, ⟨[]⟩⟩
        ⟨some [(str "/app-one/*", str "proxy:https://app-one.example.com/*")], .absent⟩
        (.ok ⟨200, ⟨[(str "content-type", str "application/javascript"),
          (str "Cache-Control", str "public, max-age=0, must-revalidate")]⟩, str "x"⟩) =
      ⟨.response 200 (str "x")
        (Headers.set ⟨[(str "content-type", str "application/javascript"),
            (str "Cache-Control", str "public, max-age=0, must-revalidate")]⟩
          (str "Cache-Control") (str "public, max-age=31536000, immutable")) t,
       [⟨⟨str "https", str "app-one.example.com", str "/index-353f0761.js", []⟩,
         Headers.set (Headers.delete ⟨[]⟩ (str "host"))
           (str "X-Routing-Loop-Detection") (str "route-subdomain-to-path")⟩]⟩ := by
  exact (c6_hashed_asset_cache
    ⟨⟨str "https", str "source.example.com", str "/app-one/index-353f0761.js", []⟩, ⟨[]⟩⟩
    ⟨some [(str "/app-one/*", str "proxy:https://app-one.example.com/*")], .absent⟩
    ⟨200, ⟨[(str "content-type", str "application/javascript"),
      (str "Cache-Control", str "public, max-age=0, must-revalidate")]⟩, str "x"⟩
    ⟨⟨str "https", str "app-one.example.com", str "/index-353f0761.js", []⟩, .proxy⟩
    (str "public, max-age=0, must-revalidate")
    (str "/app-one/index") (str "353f0761") (str ".js") '-'
    (by decide) (by decide) (by decide) (by decide) (by decide)
    (by decide) (Or.inr rfl) (by decide) (by decide) (Or.inl rfl)).1

/-! Element and attribute lemmas for the HTML rewriter. -/

theorem find?_map_update (v : Str) :
    ∀ (l : List (Str × Str)) (name : Str),
      (l.find? (fun a => a.1 == name)).isSome = true →
      (((l.map (fun a => if a.1 == name then (a.1, v) else a)).find?
        (fun a => a.1 == name)).map (fun a => a.2)) = some v := by
  intro l
  induction l with
  | nil => intro name h; simp [List.find?] at h
  | cons a l ih =>
    intro name h
    by_cases ha : (a.1 == name) = true
    · rw [List.map_cons, if_pos ha,
        @List.find?_cons_of_pos _ (fun x => x.1 == name) (a.1, v) _ ha]
      rfl
    · rw [List.map_cons, if_neg ha,
        @List.find?_cons_of_neg _ (fun x => x.1 == name) a _ ha]
      apply ih
      rw [@List.find?_cons_of_neg _ (fun x => x.1 == name) a l ha] at h
      exact h

theorem find?_map_update_other (v name other : Str) (hne : name ≠ other) :
    ∀ (l : List (Str × Str)),
      (((l.map (fun a => if a.1 == name then (a.1, v) else a)).find?
        (fun a => a.1 == other)).map (fun a => a.2)) =
      ((l.find? (fun a => a.1 == other)).map (fun a => a.2)) := by
  intro l
  induction l with
  | nil => rfl
  | cons a l ih =>
    by_cases hn : (a.1 == name) = true
    · have ho : ¬ ((a.1 == other) = true) := by
        intro hEq
        exact hne ((beq_iff_eq.mp hn) ▸ (beq_iff_eq.mp hEq))
      rw [List.map_cons, if_pos hn,
        @List.find?_cons_of_neg _ (fun x => x.1 == other) (a.1, v) _ ho,
        @List.find?_cons_of_neg _ (fun x => x.1 == other) a l ho]
      exact ih
    · by_cases ho : (a.1 == other) = true
      · rw [List.map_cons, if_neg hn,
          @List.find?_cons_of_pos _ (fun x => x.1 == other) a _ ho,
          @List.find?_cons_of_pos _ (fun x => x.1 == other) a l ho]
      · rw [List.map_cons, if_neg hn,
          @List.find?_cons_of_neg _ (fun x => x.1 == other) a _ ho,
          @List.find?_cons_of_neg _ (fun x => x.1 == other) a l ho]
        exact ih

theorem find?_append_of_none {p : Str × Str → Bool} :
    ∀ (l₁ l₂ : List (Str × Str)), l₁.find? p = none →
      (l₁ ++ l₂).find? p = l₂.find? p := by
  intro l₁
  induction l₁ with
  | nil => intro l₂ _; rfl
  | cons a l ih =>
    intro l₂ h
    by_cases hp : p a = true
    · rw [List.find?_cons_of_pos l hp] at h
      cases h
    · rw [List.find?_cons_of_neg l hp] at h
      rw [List.cons_append, @List.find?_cons_of_neg _ p a (l ++ l₂) hp]
      exact ih l₂ h

theorem getAttribute_setAttribute_self (e : HElement) (name v : Str) :
    (e.setAttribute name v).getAttribute name = some v := by
  unfold HElement.setAttribute HElement.getAttribute
  by_cases h : (e.attrs.find? (fun a => a.1 == name)).isSome = true
  · rw [if_pos h]
    exact find?_map_update v e.attrs name h
  · rw [if_neg h]
    have hn : e.attrs.find? (fun a => a.1 == name) = none :=
      Option.not_isSome_iff_eq_none.mp h
    show ((e.attrs ++ [(name, v)]).find? (fun a => a.1 == name)).map (fun a => a.2) = some v
    rw [find?_append_of_none _ _ hn,
      @List.find?_cons_of_pos _ (fun x => x.1 == name) (name, v) [] (by simp)]
    rfl

theorem getAttribute_setAttribute_other (e : HElement) (name other v : Str)
    (hne : name ≠ other) :
    (e.setAttribute name v).getAttribute other = e.getAttribute other := by
  unfold HElement.setAttribute HElement.getAttribute
  by_cases h : (e.attrs.find? (fun a => a.1 == name)).isSome = true
  · rw [if_pos h]
    exact find?_map_update_other v name other hne e.attrs
  · rw [if_neg h]
    show ((e.attrs ++ [(name, v)]).find? (fun a => a.1 == other)).map (fun a => a.2) = _
    cases hf : e.attrs.find? (fun a => a.1 == other) with
    | some a =>
      obtain ⟨l₁, l₂, hsplit, hpa, hall⟩ := find?_first _ e.attrs a hf
      have hnone : l₁.find? (fun x => x.1 == other) = none := by
        rw [List.find?_eq_none]
        intro x hx hpx
        rw [hall x hx] at hpx
        exact absurd hpx (by decide)
      rw [hsplit, List.append_assoc, List.cons_append, find?_append_of_none _ _ hnone,
        @List.find?_cons_of_pos _ (fun x => x.1 == other) a (l₂ ++ [(name, v)]) hpa]
    | none =>
      have hno : ¬ (((name, v) : Str × Str).1 == other) = true := by
        simp only [beq_iff_eq]
        exact hne
      rw [find?_append_of_none _ _ hf,
        @List.find?_cons_of_neg _ (fun x => x.1 == other) (name, v) [] hno]
      rfl

theorem setAttribute_tagName (e : HElement) (name v : Str) :
    (e.setAttribute name v).tagName = e.tagName := by
  unfold HElement.setAttribute
  split <;> rfl

theorem rewriteUrlAttribute_absolute (r : AttributeRewriter) (e : HElement)
    (name value : Str) (hga : e.getAttribute name = some value)
    (hne : value ≠ []) (habs : isAbsoluteUrlStr value = true) :
    (r.rewriteUrlAttribute e name).getAttribute name =
      some (r.rewriteAbsoluteUrl value) := by
  unfold AttributeRewriter.rewriteUrlAttribute
  rw [hga]
  simp only []
  rw [if_neg hne, if_pos habs]
  exact getAttribute_setAttribute_self e name _

theorem rewriteUrlAttribute_getAttribute_other (r : AttributeRewriter) (e : HElement)
    (name other : Str) (hne2 : name ≠ other) :
    (r.rewriteUrlAttribute e name).getAttribute other = e.getAttribute other := by
  unfold AttributeRewriter.rewriteUrlAttribute
  cases hga : e.getAttribute name with
  | none => rfl
  | some v =>
    simp only []
    by_cases hv : v = []
    · rw [if_pos hv]
    · rw [if_neg hv]
      by_cases habs : isAbsoluteUrlStr v = true
      · rw [if_pos habs]
        exact getAttribute_setAttribute_other e name other _ hne2
      · rw [if_neg habs]
        exact getAttribute_setAttribute_other e name other _ hne2

theorem rewriteUrlAttribute_tagName (r : AttributeRewriter) (e : HElement) (name : Str) :
    (r.rewriteUrlAttribute e name).tagName = e.tagName := by
  unfold AttributeRewriter.rewriteUrlAttribute
  cases hga : e.getAttribute name with
  | none => rfl
  | some v =>
    simp only []
    by_cases hv : v = []
    · rw [if_pos hv]
    · rw [if_neg hv]
      by_cases habs : isAbsoluteUrlStr v = true
      · rw [if_pos habs]
        exact setAttribute_tagName e name _
      · rw [if_neg habs]
        exact setAttribute_tagName e name _

theorem rewriteMetaContent_getAttribute_other (r : AttributeRewriter) (e : HElement)
    (other : Str) (hne : str "content" ≠ other) :
    (r.rewriteMetaContent e).getAttribute other = e.getAttribute other := by
  unfold AttributeRewriter.rewriteMetaContent
  by_cases hm : (e.tagName == str "meta") = true
  · rw [if_pos hm]
    cases hga : e.getAttribute (str "content") with
    | none => rfl
    | some content =>
      simp only []
      by_cases hc : content = []
      · rw [if_pos hc]
      · rw [if_neg hc]
        by_cases habs : isAbsoluteUrlStr content = true
        · rw [if_pos habs]
          exact getAttribute_setAttribute_other e (str "content") other _ hne
        · rw [if_neg habs]
  · rw [if_neg hm]

theorem rewriteMetaContent_meta (r : AttributeRewriter) (e : HElement) (value : Str)
    (hm : e.tagName = str "meta") (hga : e.getAttribute (str "content") = some value)
    (hne : value ≠ []) (habs : isAbsoluteUrlStr value = true) :
    (r.rewriteMetaContent e).getAttribute (str "content") =
      some (r.rewriteAbsoluteUrl value) := by
  unfold AttributeRewriter.rewriteMetaContent
  rw [if_pos (beq_iff_eq.mpr hm), hga]
  simp only []
  rw [if_neg hne, if_pos habs]
  exact getAttribute_setAttribute_self e (str "content") _

theorem parseURL_ne_nil {v : Url} {value : Str} (h : parseURL value = some v) :
    value ≠ [] := by
  intro hv
  rw [hv] at h
  have hnone : parseURL ([] : Str) = none := by decide
  rw [hnone] at h
  cases h

theorem isAbsoluteUrlStr_of_parse {v : Url} {value : Str} (h : parseURL value = some v) :
    isAbsoluteUrlStr value = true := by
  unfold isAbsoluteUrlStr
  rw [h]
  rfl

/-- The route path the handler's second lookup finds when every earlier
entry fails the plain string-prefix test and the given entry passes it. -/
theorem findRoutePath_of_first (pathname : Str) :
    ∀ (l₁ : RouteConfig) (rp tgt : Str) (l₂ : RouteConfig),
      (∀ x ∈ l₁, jsStartsWith pathname (stripWildcardPattern x.1) = false) →
      jsStartsWith pathname (stripWildcardPattern rp) = true →
      findRoutePath pathname (l₁ ++ (rp, tgt) :: l₂) = rp := by
  intro l₁
  induction l₁ with
  | nil =>
    intro rp tgt l₂ _ hm
    unfold findRoutePath
    rw [List.nil_append,
      @List.find?_cons_of_pos _ (fun e => jsStartsWith pathname (stripWildcardPattern e.1))
        (rp, tgt) l₂ hm]
    rfl
  | cons x l ih =>
    intro rp tgt l₂ hl hm
    unfold findRoutePath
    rw [List.cons_append,
      @List.find?_cons_of_neg _ (fun e => jsStartsWith pathname (stripWildcardPattern e.1))
        x (l ++ (rp, tgt) :: l₂)
        (by simp [hl x (List.mem_cons_self x l)])]
    have h2 := ih rp tgt l₂ (fun y hy => hl y (List.mem_cons_of_mem x hy)) hm
    unfold findRoutePath at h2
    exact h2

/-- Counterexample to C7 as stated: with the table `[/app →
302:https://example.com/x, /app-one/* → proxy:https://target.example/*]`,
a request for `/app-one/page` matches the `/app-one/*` entry (base path
`/app-one`), yet the handler configures the rewriter with base path
`/app` — taken from the second, boundary-free lookup that the earlier
`/app` entry wins — so the injected tag is `<base href="/app/">`, not
`<base href="/app-one/">`. -/
theorem c7_counterexample :
    computeRedirectTarget ⟨str "https", str "source.example", str "/app-one/page", []⟩
        (getRoutes ⟨some [(str "/app", str "302:https://example.com/x"),
          (str "/app-one/*", str "proxy:https://target.example/*")], .absent⟩) =
      .found ⟨⟨str "https", str "target.example", str "/page", []⟩, .proxy⟩ ∧
    handleRequest
        ⟨⟨str "https", str "source.example", str "/app-one/page", []⟩, ⟨[]⟩⟩
        ⟨some [(str "/app", str "302:https://example.com/x"),
          (str "/app-one/*", str "proxy:https://target.example/*")], .absent⟩
        (.ok ⟨200, ⟨[(str "content-type", str "text/html")]⟩, str "BODY"⟩) =
      ⟨.response 200 (str "BODY")
        ⟨[(str "content-type", str "text/html"), (str "Cache-Control", str "no-cache")]⟩
        (some ⟨⟨str "/app", ⟨str "https", str "source.example", str "/app-one/page", []⟩,
               ⟨str "https", str "target.example", str "/page", []⟩⟩, str "/app"⟩),
       [⟨⟨str "https", str "target.example", str "/page", []⟩,
         Headers.set (Headers.delete ⟨[]⟩ (str "host"))
           (str "X-Routing-Loop-Detection") (str "route-subdomain-to-path")⟩]⟩ ∧
    BaseTagInjector.element ⟨str "/app"⟩ ⟨str "head", [], []⟩ =
      ⟨str "head", [], [str "<base href=\"/app/\">"]⟩ ∧
    str "<base href=\"/app/\">" ≠ str "<base href=\"/app-one/\">" := by
  exact ⟨by decide, by decide, by decide, by decide⟩

/-- C7 (amended): on a proxied HTML response the injected base tag is the
very first emitted child of `head` and carries a guaranteed trailing
slash, but its href is `findTransformPath` — the stripped pattern of the
first table entry whose stripped pattern is a plain string prefix of the
request path — which coincides with the matched route's base path
whenever no earlier entry's stripped pattern is a string prefix of the
path. -/
theorem c7_base_injection (req : HRequest) (env : Env) (resp : UpstreamResponse)
    (m : RouteMatch)
    (hmatch : computeRedirectTarget req.url (getRoutes env) = .found m)
    (hproxy : m.type = .proxy)
    (hnoloop : ¬ req.headers.get (str "X-Routing-Loop-Detection") =
      some (str "route-subdomain-to-path"))
    (hhtml : isHtmlResponse ((resp.headers.get (str "content-type")).getD [])
      req.url.pathname = true) :
    (∃ hdrs, handleRequest req env (.ok resp) =
      ⟨.response resp.status resp.body hdrs
        (some ⟨⟨findTransformPath req.url.pathname (getRoutes env), req.url, m.targetUrl⟩,
               findTransformPath req.url.pathname (getRoutes env)⟩),
       [⟨m.targetUrl, (req.headers.delete (str "host")).set
          (str "X-Routing-Loop-Detection") (str "route-subdomain-to-path")⟩]⟩) ∧
    (∀ (e : HElement) (bp : Str), e.tagName = str "head" →
      (BaseTagInjector.element ⟨bp⟩ e).prependedHtml =
        baseTagString bp :: e.prependedHtml) ∧
    (∀ bp : Str, jsEndsWith bp (str "/") = false →
      baseTagString bp = str "<base href=\"" ++ bp ++ (str "/" ++ str "\">")) ∧
    (∀ (pathname : Str) (l₁ l₂ : RouteConfig) (rp tgt : Str),
      (∀ x ∈ l₁, jsStartsWith pathname (stripWildcardPattern x.1) = false) →
      matchesRoutePath pathname rp = true →
      findTransformPath pathname (l₁ ++ (rp, tgt) :: l₂) = stripWildcardPattern rp) := by
  refine ⟨?_, ?_, ?_, ?_⟩
  · have hnr : ¬ m.type = RouteKind.redirect := by
      rw [hproxy]; intro hc; cases hc
    have hmain : handleRequest req env (.ok resp) =
        ⟨.response resp.status resp.body
          (applyCacheHeaders resp.headers (hasContentHash req.url.pathname)
            (isImageFile req.url.pathname)
            (getCacheConfig env (findRoutePath req.url.pathname (getRoutes env)))
            (hasRestrictiveCache (resp.headers.get (str "Cache-Control")))
            (isHtmlResponse ((resp.headers.get (str "content-type")).getD [])
              req.url.pathname))
          (some ⟨⟨stripWildcardPattern (findRoutePath req.url.pathname (getRoutes env)),
                 req.url, m.targetUrl⟩,
                stripWildcardPattern (findRoutePath req.url.pathname (getRoutes env))⟩),
         [⟨m.targetUrl, (req.headers.delete (str "host")).set
            (str "X-Routing-Loop-Detection") (str "route-subdomain-to-path")⟩]⟩ := by
      simp only [handleRequest, hmatch]
      rw [if_neg hnr, if_neg hnoloop]
      simp only [hhtml, if_true]
    exact ⟨_, hmain⟩
  · intro e bp he
    unfold BaseTagInjector.element
    rw [if_pos (beq_iff_eq.mpr he)]
  · intro bp hbp
    unfold baseTagString
    rw [hbp]
    simp
  · intro pathname l₁ l₂ rp tgt hl hm
    unfold findTransformPath
    rw [findRoutePath_of_first pathname l₁ rp tgt l₂ hl (matchesRoutePath_startsWith hm)]

/-- Witness for the amended C7: under the single-route table the handler
installs base path `/app-one` and the injector emits
`<base href="/app-one/">` first in `head`. -/
theorem c7_witness :
    (∃ hdrs, handleRequest
        ⟨⟨str "https", str "source.example.com", str "/app-one/page", []⟩, ⟨[]⟩⟩
        ⟨some [(str "/app-one/*", str "proxy:https://app-one.example.com/*")], .absent⟩
        (.ok ⟨200, ⟨[(str "content-type", str "text/html")]⟩, str "BODY"⟩) =
      ⟨.response 200 (str "BODY") hdrs
        (some ⟨⟨str "/app-one",
               ⟨str "https", str "source.example.com", str "/app-one/page", []⟩,
               ⟨str "https", str "app-one.example.com", str "/page", []⟩⟩, str "/app-one"⟩),
       [⟨⟨str "https", str "app-one.example.com", str "/page", []⟩,
         Headers.set (Headers.delete ⟨[]⟩ (str "host"))
           (str "X-Routing-Loop-Detection") (str "route-subdomain-to-path")⟩]⟩) ∧
    (BaseTagInjector.element ⟨str "/app-one"⟩
        ⟨str "head", [], [str "<original>"]⟩).prependedHtml =
      baseTagString (str "/app-one") :: [str "<original>"] := by
  have h := c7_base_injection
    ⟨⟨str "https", str "source.example.com", str "/app-one/page", []⟩, ⟨[]⟩⟩
    ⟨some [(str "/app-one/*", str "proxy:https://app-one.example.com/*")], .absent⟩
    ⟨200, ⟨[(str "content-type", str "text/html")]⟩, str "BODY"⟩
    ⟨⟨str "https", str "app-one.example.com", str "/page", []⟩, .proxy⟩
    (by decide) (by decide) (by decide) (by decide)
  constructor
  · obtain ⟨hdrs, hh⟩ := h.1
    rw [(by decide : findTransformPath (str "/app-one/page")
      (getRoutes ⟨some [(str "/app-one/*", str "proxy:https://app-one.example.com/*")],
        .absent⟩) = str "/app-one")] at hh
    exact ⟨hdrs, hh⟩
  · exact h.2.1 ⟨str "head", [], [str "<original>"]⟩ (str "/app-one") rfl

/-- Counterexample to C8 as stated: `https://app.example.evil/x` parses as
an absolute URL whose origin differs from the proxied target origin
`https://app.example`, yet the attribute rewriter does not leave it
unchanged — it rewrites it to `https://source.example/app-one.evil/x` —
because the implementation tests a string prefix on the origin, not
parsed-origin equality. -/
theorem c8_counterexample :
    parseURL (str "https://app.example.evil/x") =
      some ⟨str "https", str "app.example.evil", str "/x", []⟩ ∧
    (⟨str "https", str "app.example.evil", str "/x", []⟩ : Url).origin ≠
      (⟨str "https", str "app.example", str "/", []⟩ : Url).origin ∧
    AttributeRewriter.element
        ⟨str "/app-one", ⟨str "https", str "source.example", str "/", []⟩,
         ⟨str "https", str "app.example", str "/", []⟩⟩
        ⟨str "a", [(str "href", str "https://app.example.evil/x")], []⟩ =
      ⟨str "a", [(str "href", str "https://source.example/app-one.evil/x")], []⟩ ∧
    str "https://source.example/app-one.evil/x" ≠ str "https://app.example.evil/x" := by
  exact ⟨by decide, by decide, by decide, by decide⟩

/-- C8 (amended): the absolute-URL rewriter keys on a plain string-prefix
test against the target origin, not on parsed-origin equality: an
`href`/`src`/meta-`content` value whose text begins with the target
origin string is rewritten to the source origin plus the route base path
plus the remainder — in particular every absolute value whose parsed
origin equals the target origin — and a value not beginning with that
string is left unchanged; an absolute value of a different origin whose
text merely extends the target origin string is, however, rewritten
too. -/
theorem c8_absolute_rewrite (r : AttributeRewriter) :
    (∀ value : Str, jsStartsWith value r.targetUrl.origin = true →
      r.rewriteAbsoluteUrl value =
        r.sourceUrl.origin ++ r.sourcePath ++ value.drop r.targetUrl.origin.length) ∧
    (∀ value : Str, jsStartsWith value r.targetUrl.origin = false →
      r.rewriteAbsoluteUrl value = value) ∧
    (∀ (value : Str) (v : Url), parseURL value = some v →
      v.origin = r.targetUrl.origin → jsStartsWith value r.targetUrl.origin = true) ∧
    (∀ (e : HElement) (value : Str) (v : Url), parseURL value = some v →
      e.getAttribute (str "href") = some value →
      (r.element e).getAttribute (str "href") = some (r.rewriteAbsoluteUrl value)) ∧
    (∀ (e : HElement) (value : Str) (v : Url), parseURL value = some v →
      e.getAttribute (str "src") = some value →
      (r.element e).getAttribute (str "src") = some (r.rewriteAbsoluteUrl value)) ∧
    (∀ (e : HElement) (value : Str) (v : Url), parseURL value = some v →
      e.tagName = str "meta" → e.getAttribute (str "content") = some value →
      (r.element e).getAttribute (str "content") =
        some (r.rewriteAbsoluteUrl value)) := by
  refine ⟨?_, ?_, ?_, ?_, ?_, ?_⟩
  · intro value h
    unfold AttributeRewriter.rewriteAbsoluteUrl
    rw [if_pos h]
  · intro value h
    unfold AttributeRewriter.rewriteAbsoluteUrl
    rw [if_neg (by simp [h])]
  · intro value v hp ho
    rw [jsStartsWith_iff]
    have hpre := (parseURL_origin_startsWith hp).1
    rw [ho] at hpre
    exact hpre
  · intro e value v hp hga
    have hne := parseURL_ne_nil hp
    have habs := isAbsoluteUrlStr_of_parse hp
    unfold AttributeRewriter.element
    rw [rewriteMetaContent_getAttribute_other r _ (str "href") (by decide),
        rewriteUrlAttribute_getAttribute_other r _ (str "src") (str "href") (by decide)]
    exact rewriteUrlAttribute_absolute r e (str "href") value hga hne habs
  · intro e value v hp hga
    have hne := parseURL_ne_nil hp
    have habs := isAbsoluteUrlStr_of_parse hp
    unfold AttributeRewriter.element
    rw [rewriteMetaContent_getAttribute_other r _ (str "src") (by decide)]
    have hga1 : (r.rewriteUrlAttribute e (str "href")).getAttribute (str "src") =
        some value := by
      rw [rewriteUrlAttribute_getAttribute_other r e (str "href") (str "src") (by decide)]
      exact hga
    exact rewriteUrlAttribute_absolute r _ (str "src") value hga1 hne habs
  · intro e value v hp hm hga
    have hne := parseURL_ne_nil hp
    have habs := isAbsoluteUrlStr_of_parse hp
    unfold AttributeRewriter.element
    have hga2 : (r.rewriteUrlAttribute (r.rewriteUrlAttribute e (str "href"))
        (str "src")).getAttribute (str "content") = some value := by
      rw [rewriteUrlAttribute_getAttribute_other r _ (str "src") (str "content") (by decide),
          rewriteUrlAttribute_getAttribute_other r e (str "href") (str "content") (by decide)]
      exact hga
    have hm2 : (r.rewriteUrlAttribute (r.rewriteUrlAttribute e (str "href"))
        (str "src")).tagName = str "meta" := by
      rw [rewriteUrlAttribute_tagName, rewriteUrlAttribute_tagName]
      exact hm
    exact rewriteMetaContent_meta r _ value hm2 hga2 hne habs

/-- Witness for the amended C8: a same-origin absolute reference is mapped
onto the public path and an external reference not sharing the origin
prefix is untouched. -/
theorem c8_witness :
    AttributeRewriter.rewriteAbsoluteUrl
        ⟨str "/app-one", ⟨str "https", str "source.example", str "/", []⟩,
         ⟨str "https", str "app-one.example.com", str "/", []⟩⟩
        (str "https://app-one.example.com/page") =
      str "https://source.example/app-one/page" ∧
    AttributeRewriter.rewriteAbsoluteUrl
        ⟨str "/app-one", ⟨str "https", str "source.example", str "/", []⟩,
         ⟨str "https", str "app-one.example.com", str "/", []⟩⟩
        (str "https://external.example/zzz") = str "https://external.example/zzz" := by
  constructor
  · have h := (c8_absolute_rewrite
      ⟨str "/app-one", ⟨str "https", str "source.example", str "/", []⟩,
       ⟨str "https", str "app-one.example.com", str "/", []⟩⟩).1
      (str "https://app-one.example.com/page") (by decide)
    rw [h]
    decide
  · exact (c8_absolute_rewrite
      ⟨str "/app-one", ⟨str "https", str "source.example", str "/", []⟩,
       ⟨str "https", str "app-one.example.com", str "/", []⟩⟩).2.1
      (str "https://external.example/zzz") (by decide)

end SubdomainRouter
